import Mathlib

/-!
Verification development for the nested Parquet-to-Arrow decoding dispatcher
(`src/arrow2/src/io/parquet/read/deserialize/nested.rs`) and the array `get`
accessors (`src/daft-core/src/array/ops/get.rs`) of the Daft repository.

The Rust code is shallowly embedded: Rust `Vec` pop / drain operations become
explicit list operations (Rust `Vec::pop` removes the LAST element, so the
Lean lists keep the same element order as the Rust vectors and we pop from the
back); the type-erased lazy iterators returned by the dispatcher become a
symbolic `NestedIter` tree recording exactly the observable structure the
dispatcher builds (which leaf decoder was selected, with which cast closure,
which column / value-count entries it consumed, the nesting-context stack it
received, and which assemblers wrap it); fallible Rust code returning
`Result` becomes `DResult`, which distinguishes returned errors (`Error`)
from Rust panics (`.unwrap()` on an empty vector, out-of-range drains).
-/

namespace DaftNested

/-- Integer key types admitted by arrow2's `match_integer_type!` macro
(dictionary key widths). -/
inductive IntegerType where
  | int8 | int16 | int32 | int64
  | uint8 | uint16 | uint32 | uint64
deriving DecidableEq, Repr

/-- Arrow time units. -/
inductive TimeUnit where
  | second | millisecond | microsecond | nanosecond
deriving DecidableEq, Repr

/-- Arrow interval units. -/
inductive IntervalUnit where
  | yearMonth | dayTime | monthDayNano
deriving DecidableEq, Repr

/-- arrow2 `PrimitiveType` (the in-memory primitive value kind). -/
inductive ArrowPrimitiveType where
  | int8 | int16 | int32 | int64 | int128 | int256
  | uint8 | uint16 | uint32 | uint64
  | float32 | float64
  | daysMs | monthDayNano
deriving DecidableEq, Repr

/-- arrow2 `PhysicalType` (the in-memory representation class of a
logical `DataType`); the dispatcher's outer match is on this type. -/
inductive ArrowPhysicalType where
  | null | boolean
  | primitive (t : ArrowPrimitiveType)
  | binary | fixedSizeBinary | largeBinary
  | utf8 | largeUtf8
  | list | fixedSizeList | largeList
  | struct | map
  | dictionary (key : IntegerType)
deriving DecidableEq, Repr

/-- parquet2 `PhysicalType`: the on-disk physical type of one leaf column.
The dispatcher reads it from the popped `PrimitiveType` descriptor. -/
inductive ParquetPhysicalType where
  | boolean | int32 | int64 | int96
  | float | double | byteArray
  | fixedLenByteArray (n : Nat)
deriving DecidableEq, Repr

/-- parquet2 `PrimitiveType` descriptor; the dispatcher only reads its
`physical_type` field, so only that field is modelled. -/
structure PrimitiveTypeDesc where
  physicalType : ParquetPhysicalType
deriving DecidableEq, Repr

mutual
/-- arrow2 logical `DataType` (the subset reachable by this reader). -/
inductive DataType where
  | null | boolean
  | int8 | int16 | int32 | int64
  | uint8 | uint16 | uint32 | uint64
  | float32 | float64
  | binary | largeBinary | utf8 | largeUtf8
  | fixedSizeBinary (n : Nat)
  | date32 | date64
  | time32 (unit : TimeUnit) | time64 (unit : TimeUnit)
  | timestamp (unit : TimeUnit)
  | duration (unit : TimeUnit)
  | interval (unit : IntervalUnit)
  | decimal (precision scale : Nat)
  | decimal256 (precision scale : Nat)
  | list (inner : Field)
  | largeList (inner : Field)
  | fixedSizeList (inner : Field) (size : Nat)
  | struct (fields : List Field)
  | map (inner : Field) (sorted : Bool)
  | dictionary (key : IntegerType) (value : DataType) (sorted : Bool)

/-- arrow2 `Field`: a named schema node.  Only `data_type` and
`is_nullable` are read by the dispatcher, so the name/metadata are omitted. -/
inductive Field where
  | mk (dataType : DataType) (isNullable : Bool)
end

def Field.dataType : Field → DataType
  | .mk dt _ => dt

def Field.isNullable : Field → Bool
  | .mk _ nb => nb

/-- `DataType::to_physical_type` of arrow2, restricted to the modelled
constructors. -/
def DataType.toPhysicalType : DataType → ArrowPhysicalType
  | .null => .null
  | .boolean => .boolean
  | .int8 => .primitive .int8
  | .int16 => .primitive .int16
  | .int32 => .primitive .int32
  | .int64 => .primitive .int64
  | .uint8 => .primitive .uint8
  | .uint16 => .primitive .uint16
  | .uint32 => .primitive .uint32
  | .uint64 => .primitive .uint64
  | .float32 => .primitive .float32
  | .float64 => .primitive .float64
  | .binary => .binary
  | .largeBinary => .largeBinary
  | .utf8 => .utf8
  | .largeUtf8 => .largeUtf8
  | .fixedSizeBinary _ => .fixedSizeBinary
  | .date32 => .primitive .int32
  | .date64 => .primitive .int64
  | .time32 _ => .primitive .int32
  | .time64 _ => .primitive .int64
  | .timestamp _ => .primitive .int64
  | .duration _ => .primitive .int64
  | .interval .yearMonth => .primitive .int32
  | .interval .dayTime => .primitive .daysMs
  | .interval .monthDayNano => .primitive .monthDayNano
  | .decimal _ _ => .primitive .int128
  | .decimal256 _ _ => .primitive .int256
  | .list _ => .list
  | .largeList _ => .largeList
  | .fixedSizeList _ _ => .fixedSizeList
  | .struct _ => .struct
  | .map _ _ => .map
  | .dictionary k _ _ => .dictionary k

/-- `DataType::to_logical_type`: identity on every modelled constructor
(the Extension wrapper, which it unwraps, is not modelled). -/
def DataType.toLogicalType (d : DataType) : DataType := d

/-- `InitNested`: one level of the nesting-context stack. -/
inductive InitNested where
  | primitive (nullable : Bool)
  | list (nullable : Bool)
  | struct (nullable : Bool)
deriving DecidableEq, Repr

def InitNested.isPrimitive : InitNested → Bool
  | .primitive _ => true
  | _ => false

/-- The two error classes produced by this module
(`Error::nyi` and `Error::InvalidArgumentError`). -/
inductive Error where
  | nyi (msg : String)
  | invalidArgumentError (msg : String)
deriving DecidableEq, Repr

/-! ## Rust integer-cast semantics

The dispatcher passes a cast closure to each primitive leaf decoder.  Rust
`x as uN` keeps the low `N` bits (value mod `2^N`); `x as iN` keeps the low
`N` bits reinterpreted as a two's-complement signed integer.  Sign-extending
widenings (`i32 as i128`, `I256::new`) preserve the value. -/

/-- Rust `as uN` on any integer source: the value reduced modulo `2^w`. -/
def wrapU (w : Nat) (x : Int) : Int := x % (2 ^ w)

/-- Rust `as iN` on any wider integer source: the value reduced modulo `2^w`
and reinterpreted in the signed range `[-2^(w-1), 2^(w-1))`. -/
def wrapS (w : Nat) (x : Int) : Int := (x + 2 ^ (w - 1)) % (2 ^ w) - 2 ^ (w - 1)

/-- `I256::new : i128 -> I256`, a sign-extending (value-preserving) widening. -/
def I256.new (x : Int) : Int := x

/-- The cast closures occurring in `columns_to_iter_recursive` and
`dict_read`, one constructor per distinct closure in the source. -/
inductive CastKind where
  | i32AsI8 | i32AsI16 | i32Id | i64Id
  | i32AsU8 | i32AsU16 | i32AsU32
  | i64AsU32 | i64AsU64
  | f32Id | f64Id
  | i32AsI128 | i64AsI128
  | i32AsI256 | i64AsI256
  | i64AsI32
deriving DecidableEq, Repr

/-- Value semantics of each cast closure (float identity casts are modelled
as the identity on the carried value). -/
def CastKind.apply : CastKind → Int → Int
  | .i32AsI8, x => wrapS 8 x
  | .i32AsI16, x => wrapS 16 x
  | .i32Id, x => x
  | .i64Id, x => x
  | .i32AsU8, x => wrapU 8 x
  | .i32AsU16, x => wrapU 16 x
  | .i32AsU32, x => wrapU 32 x
  | .i64AsU32, x => wrapU 32 x
  | .i64AsU64, x => wrapU 64 x
  | .f32Id, x => x
  | .f64Id, x => x
  | .i32AsI128, x => x
  | .i64AsI128, x => x
  | .i32AsI256, x => I256.new x
  | .i64AsI256, x => I256.new x
  | .i64AsI32, x => wrapS 32 x

/-! ## Big-endian two's-complement byte decoding

`convert_i128` and `convert_i256` live in
`src/arrow2/src/io/parquet/read/mod.rs`, which is not part of the provided
sources; they are modelled from the spec. -/

/-- Big-endian unsigned value of a byte list (each entry `< 256`). -/
def beUnsigned : List Nat → Nat
  | [] => 0
  | b :: bs => b * 256 ^ bs.length + beUnsigned bs

/-- Big-endian two's-complement signed value of a byte list. -/
def beTwosComplement (bytes : List Nat) : Int :=
  let u := beUnsigned bytes
  if 2 * u < 256 ^ bytes.length then (u : Int) else (u : Int) - 256 ^ bytes.length

/-- Modelled from the spec: `convert_i128` (defined in
`io/parquet/read/mod.rs`, outside the provided sources) reinterprets an
`n`-byte (`n ≤ 16`) big-endian two's-complement slice as an `i128`. -/
def convert_i128 (bytes : List Nat) (_n : Nat) : Int := beTwosComplement bytes

/-- Modelled from the spec: `convert_i256` (defined in
`io/parquet/read/mod.rs`, outside the provided sources) reinterprets an
up-to-32-byte big-endian two's-complement slice as a 256-bit integer. -/
def convert_i256 (bytes : List Nat) : Int := beTwosComplement bytes

/-! ## Rust `Vec` operations

Rust `Vec::pop` removes the last element; `vec.drain(vec.len() - n ..)`
removes and returns the last `n` elements (and panics, via index underflow,
when `n > vec.len()`). -/

/-- `Vec::pop`: removes and returns the last element, if any. -/
def vecPop (l : List α) : Option (α × List α) :=
  match l.getLast? with
  | none => none
  | some x => some (x, l.dropLast)

/-- The result type of the embedded fallible computations: a returned value,
a returned `Error`, or a Rust panic (e.g. `.unwrap()` on `None`). -/
inductive DResult (α : Type) where
  | ok (a : α)
  | err (e : Error)
  | panicked

def DResult.bind : DResult α → (α → DResult β) → DResult β
  | .ok a, f => f a
  | .err e, _ => .err e
  | .panicked, _ => .panicked

instance : Monad DResult where
  pure := .ok
  bind := DResult.bind



/-- `Vec::pop().unwrap()`: panics when the vector is empty. -/
def vecPopUnwrap (l : List α) : DResult (α × List α) :=
  match vecPop l with
  | none => .panicked
  | some p => .ok p

/-- `vec.drain(vec.len() - n ..).collect()`: returns (remaining prefix,
drained last-`n` suffix); panics when `n > vec.len()`. -/
def vecDrainLastN (l : List α) (n : Nat) : DResult (List α × List α) :=
  if n ≤ l.length then .ok (l.take (l.length - n), l.drop (l.length - n))
  else .panicked



/-! ## The symbolic result of the dispatcher

The Rust function returns a boxed lazy iterator; the embedding returns a
`NestedIter` tree recording the observable structure of that iterator:
which leaf decoder was constructed with which arguments, and which
assemblers (`create_list`, `create_map`, `StructIterator`) wrap it. -/

/-- A short printable name for a parquet physical type (used in error
messages; the source uses `{:?}` formatting). -/
def ParquetPhysicalType.render : ParquetPhysicalType → String
  | .boolean => "Boolean"
  | .int32 => "Int32"
  | .int64 => "Int64"
  | .int96 => "Int96"
  | .float => "Float"
  | .double => "Double"
  | .byteArray => "ByteArray"
  | .fixedLenByteArray n => "FixedLenByteArray(" ++ toString n ++ ")"

/-- A short printable name for a logical data type (used in error messages;
the source uses `{:?}` formatting; nested types render shallowly). -/
def DataType.render : DataType → String
  | .null => "Null"
  | .boolean => "Boolean"
  | .int8 => "Int8"
  | .int16 => "Int16"
  | .int32 => "Int32"
  | .int64 => "Int64"
  | .uint8 => "UInt8"
  | .uint16 => "UInt16"
  | .uint32 => "UInt32"
  | .uint64 => "UInt64"
  | .float32 => "Float32"
  | .float64 => "Float64"
  | .binary => "Binary"
  | .largeBinary => "LargeBinary"
  | .utf8 => "Utf8"
  | .largeUtf8 => "LargeUtf8"
  | .fixedSizeBinary n => "FixedSizeBinary(" ++ toString n ++ ")"
  | .date32 => "Date32"
  | .date64 => "Date64"
  | .time32 _ => "Time32"
  | .time64 _ => "Time64"
  | .timestamp _ => "Timestamp"
  | .duration _ => "Duration"
  | .interval _ => "Interval"
  | .decimal p s => "Decimal(" ++ toString p ++ "," ++ toString s ++ ")"
  | .decimal256 p s => "Decimal256(" ++ toString p ++ "," ++ toString s ++ ")"
  | .list _ => "List"
  | .largeList _ => "LargeList"
  | .fixedSizeList _ _ => "FixedSizeList"
  | .struct _ => "Struct"
  | .map _ _ => "Map"
  | .dictionary _ _ _ => "Dictionary"

/-- The leaf decoder families constructed by the dispatcher and `dict_read`,
one constructor per distinct `NestedIter`/`NestedDictIter` construction site
family in the source. -/
inductive LeafKind where
  | nullLeaf
  | booleanLeaf
  | primitiveLeaf (cast : CastKind)
  | binaryLeaf32
  | binaryLeaf64
  | decimalFromFLBA (n : Nat)
  | decimal256FromFLBA16 (n : Nat)
  | decimal256FromFLBA32 (n : Nat)
  | dictPrimitiveLeaf (key : IntegerType) (cast : CastKind)
  | dictBinaryLeaf32 (key : IntegerType)
  | dictBinaryLeaf64 (key : IntegerType)
  | dictFixedSizeBinaryLeaf (key : IntegerType)
deriving DecidableEq, Repr

/-- The symbolic iterator tree.  A `leaf` records the leaf decoder kind, the
logical data type handed to it, the page-source (column) it popped, the
nesting-context stack it received (including the `Primitive` entry the
dispatcher pushed; the `primitive`/`remove_nested` wrappers and the decimal
conversion closures pop that entry from every yielded `NestedState`), the
expected value count it was given (`none` on dictionary paths, which do not
receive one), and the parent-nullability flag it was given (`none` on
dictionary paths, which do not receive one). -/
inductive NestedIter where
  | leaf (kind : LeafKind) (dataType : DataType) (column : Nat)
      (init : List InitNested) (numValues : Option Nat) (parentNullable : Option Bool)
  | listAssemble (dataType : DataType) (child : NestedIter)
  | mapAssemble (dataType : DataType) (child : NestedIter)
  | structAssemble (children : List NestedIter) (fields : List Field)

/-- The dispatcher's embedded result: the iterator, plus (as ghost state not
returned by the Rust function, whose vectors are simply moved and dropped)
the entries remaining in each of the three parallel vectors after the pops
and drains the call performed. -/
structure DispatchOut where
  iter : NestedIter
  restColumns : List Nat
  restTypes : List PrimitiveTypeDesc
  restNumValues : List Nat

mutual
/-- Modelled from the spec: `n_columns` (defined in
`io/parquet/read/deserialize/nested_utils.rs`, outside the provided sources)
counts the flattened leaf columns a logical type owns: primitives own 1,
nested types own the sum over their children. -/
def n_columns : DataType → Nat
  | .list inner => nColumnsField inner
  | .largeList inner => nColumnsField inner
  | .fixedSizeList inner _ => nColumnsField inner
  | .struct fields => nColumnsFields fields
  | .map inner _ => nColumnsField inner
  | _ => 1

def nColumnsField : Field → Nat
  | .mk dt _ => n_columns dt

def nColumnsFields : List Field → Nat
  | [] => 0
  | f :: fs => nColumnsField f + nColumnsFields fs
end

/-- `dict_read`: the dictionary leaf dispatch, keyed by the dictionary's
value logical type.  Mirrors the source signature: it receives the page
source (modelled by its column id), the context stack, the (unused) parquet
type descriptor, the dictionary data type, `num_rows` and `chunk_size` —
and in particular no expected-value-count and no parent-nullability flag.
The source panics when the data type is not a dictionary. -/
def dict_read (column : Nat) (init : List InitNested) (_type_ : PrimitiveTypeDesc)
    (keyType : IntegerType) (dataType : DataType) (_numRows : Nat)
    (_chunkSize : Option Nat) : DResult NestedIter :=
  match dataType with
  | .dictionary _ valuesDataType _ =>
    match valuesDataType.toLogicalType with
    | .uint8 =>
        .ok (.leaf (.dictPrimitiveLeaf keyType .i32AsU8) dataType column init none none)
    | .uint16 =>
        .ok (.leaf (.dictPrimitiveLeaf keyType .i32AsU16) dataType column init none none)
    | .uint32 =>
        .ok (.leaf (.dictPrimitiveLeaf keyType .i32AsU32) dataType column init none none)
    | .int8 =>
        .ok (.leaf (.dictPrimitiveLeaf keyType .i32AsI8) dataType column init none none)
    | .int16 =>
        .ok (.leaf (.dictPrimitiveLeaf keyType .i32AsI16) dataType column init none none)
    | .int32 | .date32 | .time32 _ | .interval .yearMonth =>
        .ok (.leaf (.dictPrimitiveLeaf keyType .i32Id) dataType column init none none)
    | .int64 | .date64 | .time64 _ | .duration _ =>
        .ok (.leaf (.dictPrimitiveLeaf keyType .i64AsI32) dataType column init none none)
    | .float32 =>
        .ok (.leaf (.dictPrimitiveLeaf keyType .f32Id) dataType column init none none)
    | .float64 =>
        .ok (.leaf (.dictPrimitiveLeaf keyType .f64Id) dataType column init none none)
    | .utf8 | .binary =>
        .ok (.leaf (.dictBinaryLeaf32 keyType) dataType column init none none)
    | .largeUtf8 | .largeBinary =>
        .ok (.leaf (.dictBinaryLeaf64 keyType) dataType column init none none)
    | .fixedSizeBinary _ =>
        .ok (.leaf (.dictFixedSizeBinaryLeaf keyType) dataType column init none none)
    | other =>
        .err (.nyi ("Reading nested dictionaries of type " ++ other.render))
  | _ => .panicked

mutual
/-- The recursive schema dispatcher `columns_to_iter_recursive`.  Matches
first on the arrow physical type of the field, then (for the residual arm)
on its logical type, exactly as the source does.  Page sources are modelled
by opaque column ids (`Nat`). -/
def columns_to_iter_recursive (columns : List Nat) (types : List PrimitiveTypeDesc)
    (field : Field) (init : List InitNested) (numRows : Nat) (chunkSize : Option Nat)
    (numValues : List Nat) (isParentNullable : Bool) : DResult DispatchOut :=
  match field.dataType.toPhysicalType with
  | .null => do
      let init := init ++ [InitNested.primitive field.isNullable]
      let types := types.dropLast
      let (c, columns) ← vecPopUnwrap columns
      let (nv, numValues) ← vecPopUnwrap numValues
      pure ⟨.leaf .nullLeaf field.dataType c init (some nv) (some isParentNullable),
        columns, types, numValues⟩
  | .boolean => do
      let init := init ++ [InitNested.primitive field.isNullable]
      let types := types.dropLast
      let (c, columns) ← vecPopUnwrap columns
      let (nv, numValues) ← vecPopUnwrap numValues
      pure ⟨.leaf .booleanLeaf field.dataType c init (some nv) (some isParentNullable),
        columns, types, numValues⟩
  | .primitive .int8 => do
      let init := init ++ [InitNested.primitive field.isNullable]
      let types := types.dropLast
      let (c, columns) ← vecPopUnwrap columns
      let (nv, numValues) ← vecPopUnwrap numValues
      pure ⟨.leaf (.primitiveLeaf .i32AsI8) field.dataType c init (some nv)
        (some isParentNullable), columns, types, numValues⟩
  | .primitive .int16 => do
      let init := init ++ [InitNested.primitive field.isNullable]
      let types := types.dropLast
      let (c, columns) ← vecPopUnwrap columns
      let (nv, numValues) ← vecPopUnwrap numValues
      pure ⟨.leaf (.primitiveLeaf .i32AsI16) field.dataType c init (some nv)
        (some isParentNullable), columns, types, numValues⟩
  | .primitive .int32 => do
      let init := init ++ [InitNested.primitive field.isNullable]
      let types := types.dropLast
      let (c, columns) ← vecPopUnwrap columns
      let (nv, numValues) ← vecPopUnwrap numValues
      pure ⟨.leaf (.primitiveLeaf .i32Id) field.dataType c init (some nv)
        (some isParentNullable), columns, types, numValues⟩
  | .primitive .int64 => do
      let init := init ++ [InitNested.primitive field.isNullable]
      let types := types.dropLast
      let (c, columns) ← vecPopUnwrap columns
      let (nv, numValues) ← vecPopUnwrap numValues
      pure ⟨.leaf (.primitiveLeaf .i64Id) field.dataType c init (some nv)
        (some isParentNullable), columns, types, numValues⟩
  | .primitive .uint8 => do
      let init := init ++ [InitNested.primitive field.isNullable]
      let types := types.dropLast
      let (c, columns) ← vecPopUnwrap columns
      let (nv, numValues) ← vecPopUnwrap numValues
      pure ⟨.leaf (.primitiveLeaf .i32AsU8) field.dataType c init (some nv)
        (some isParentNullable), columns, types, numValues⟩
  | .primitive .uint16 => do
      let init := init ++ [InitNested.primitive field.isNullable]
      let types := types.dropLast
      let (c, columns) ← vecPopUnwrap columns
      let (nv, numValues) ← vecPopUnwrap numValues
      pure ⟨.leaf (.primitiveLeaf .i32AsU16) field.dataType c init (some nv)
        (some isParentNullable), columns, types, numValues⟩
  | .primitive .uint32 => do
      let init := init ++ [InitNested.primitive field.isNullable]
      let (type_, types) ← vecPopUnwrap types
      match type_.physicalType with
      | .int32 => do
          let (c, columns) ← vecPopUnwrap columns
          let (nv, numValues) ← vecPopUnwrap numValues
          pure ⟨.leaf (.primitiveLeaf .i32AsU32) field.dataType c init (some nv)
            (some isParentNullable), columns, types, numValues⟩
      | .int64 => do
          -- some implementations of parquet write arrow u32 into i64
          let (c, columns) ← vecPopUnwrap columns
          let (nv, numValues) ← vecPopUnwrap numValues
          pure ⟨.leaf (.primitiveLeaf .i64AsU32) field.dataType c init (some nv)
            (some isParentNullable), columns, types, numValues⟩
      | other =>
          .err (.nyi ("Deserializing UInt32 from " ++ other.render ++ " parquet"))
  | .primitive .uint64 => do
      let init := init ++ [InitNested.primitive field.isNullable]
      let types := types.dropLast
      let (c, columns) ← vecPopUnwrap columns
      let (nv, numValues) ← vecPopUnwrap numValues
      pure ⟨.leaf (.primitiveLeaf .i64AsU64) field.dataType c init (some nv)
        (some isParentNullable), columns, types, numValues⟩
  | .primitive .float32 => do
      let init := init ++ [InitNested.primitive field.isNullable]
      let types := types.dropLast
      let (c, columns) ← vecPopUnwrap columns
      let (nv, numValues) ← vecPopUnwrap numValues
      pure ⟨.leaf (.primitiveLeaf .f32Id) field.dataType c init (some nv)
        (some isParentNullable), columns, types, numValues⟩
  | .primitive .float64 => do
      let init := init ++ [InitNested.primitive field.isNullable]
      let types := types.dropLast
      let (c, columns) ← vecPopUnwrap columns
      let (nv, numValues) ← vecPopUnwrap numValues
      pure ⟨.leaf (.primitiveLeaf .f64Id) field.dataType c init (some nv)
        (some isParentNullable), columns, types, numValues⟩
  | .binary | .utf8 => do
      let init := init ++ [InitNested.primitive field.isNullable]
      let types := types.dropLast
      let (c, columns) ← vecPopUnwrap columns
      let (nv, numValues) ← vecPopUnwrap numValues
      pure ⟨.leaf .binaryLeaf32 field.dataType c init (some nv)
        (some isParentNullable), columns, types, numValues⟩
  | .largeBinary | .largeUtf8 => do
      let init := init ++ [InitNested.primitive field.isNullable]
      let types := types.dropLast
      let (c, columns) ← vecPopUnwrap columns
      let (nv, numValues) ← vecPopUnwrap numValues
      pure ⟨.leaf .binaryLeaf64 field.dataType c init (some nv)
        (some isParentNullable), columns, types, numValues⟩
  | _ =>
    match h : field.dataType.toLogicalType with
    | .dictionary keyType _ _ => do
        -- num_values is intentionally not passed on to the dictionary path
        let init := init ++ [InitNested.primitive field.isNullable]
        let (type_, types) ← vecPopUnwrap types
        let (c, columns) ← vecPopUnwrap columns
        let iter ← dict_read c init type_ keyType field.dataType numRows chunkSize
        pure ⟨iter, columns, types, numValues⟩
    | .list inner => do
        let init := init ++ [InitNested.list field.isNullable]
        let r ← columns_to_iter_recursive columns types inner init numRows chunkSize
          numValues (isParentNullable || field.isNullable)
        pure ⟨.listAssemble field.dataType r.iter, r.restColumns, r.restTypes, r.restNumValues⟩
    | .largeList inner => do
        let init := init ++ [InitNested.list field.isNullable]
        let r ← columns_to_iter_recursive columns types inner init numRows chunkSize
          numValues (isParentNullable || field.isNullable)
        pure ⟨.listAssemble field.dataType r.iter, r.restColumns, r.restTypes, r.restNumValues⟩
    | .fixedSizeList inner _ => do
        let init := init ++ [InitNested.list field.isNullable]
        let r ← columns_to_iter_recursive columns types inner init numRows chunkSize
          numValues (isParentNullable || field.isNullable)
        pure ⟨.listAssemble field.dataType r.iter, r.restColumns, r.restTypes, r.restNumValues⟩
    | .decimal _ _ => do
        let init := init ++ [InitNested.primitive field.isNullable]
        let (type_, types) ← vecPopUnwrap types
        match type_.physicalType with
        | .int32 => do
            let (c, columns) ← vecPopUnwrap columns
            let (nv, numValues) ← vecPopUnwrap numValues
            pure ⟨.leaf (.primitiveLeaf .i32AsI128) field.dataType c init (some nv)
              (some isParentNullable), columns, types, numValues⟩
        | .int64 => do
            let (c, columns) ← vecPopUnwrap columns
            let (nv, numValues) ← vecPopUnwrap numValues
            pure ⟨.leaf (.primitiveLeaf .i64AsI128) field.dataType c init (some nv)
              (some isParentNullable), columns, types, numValues⟩
        | .fixedLenByteArray n =>
            if n > 16 then
              .err (.invalidArgumentError
                ("Cannot decode Decimal128 type from FixedLenByteArray of len " ++ toString n))
            else do
              let (c, columns) ← vecPopUnwrap columns
              let (nv, numValues) ← vecPopUnwrap numValues
              pure ⟨.leaf (.decimalFromFLBA n) field.dataType c init (some nv)
                (some isParentNullable), columns, types, numValues⟩
        | other =>
            .err (.nyi ("Deserializing type for Decimal " ++ other.render ++ " from parquet"))
    | .decimal256 _ _ => do
        let init := init ++ [InitNested.primitive field.isNullable]
        let (type_, types) ← vecPopUnwrap types
        match type_.physicalType with
        | .int32 => do
            let (c, columns) ← vecPopUnwrap columns
            let (nv, numValues) ← vecPopUnwrap numValues
            pure ⟨.leaf (.primitiveLeaf .i32AsI256) field.dataType c init (some nv)
              (some isParentNullable), columns, types, numValues⟩
        | .int64 => do
            let (c, columns) ← vecPopUnwrap columns
            let (nv, numValues) ← vecPopUnwrap numValues
            pure ⟨.leaf (.primitiveLeaf .i64AsI256) field.dataType c init (some nv)
              (some isParentNullable), columns, types, numValues⟩
        | .fixedLenByteArray n =>
            if n ≤ 16 then do
              let (c, columns) ← vecPopUnwrap columns
              let (nv, numValues) ← vecPopUnwrap numValues
              pure ⟨.leaf (.decimal256FromFLBA16 n) field.dataType c init (some nv)
                (some isParentNullable), columns, types, numValues⟩
            else if n ≤ 32 then do
              let (c, columns) ← vecPopUnwrap columns
              let (nv, numValues) ← vecPopUnwrap numValues
              pure ⟨.leaf (.decimal256FromFLBA32 n) field.dataType c init (some nv)
                (some isParentNullable), columns, types, numValues⟩
            else
              .err (.invalidArgumentError
                ("Cannot decode Decimal256 type from FixedLenByteArray of len " ++ toString n))
        | other =>
            .err (.nyi ("Deserializing type for Decimal " ++ other.render ++ " from parquet"))
    | .struct fields => do
        let (children, restC, restT, restNV) ← structChildrenRev columns types fields
          field.isNullable init numRows chunkSize numValues isParentNullable
        pure ⟨.structAssemble children fields, restC, restT, restNV⟩
    | .map inner _ => do
        let init := init ++ [InitNested.list field.isNullable]
        let r ← columns_to_iter_recursive columns types inner init numRows chunkSize
          numValues (isParentNullable || field.isNullable)
        pure ⟨.mapAssemble field.dataType r.iter, r.restColumns, r.restTypes, r.restNumValues⟩
    | other =>
        .err (.nyi ("Deserializing type " ++ other.render ++ " from parquet"))
termination_by sizeOf field
decreasing_by
  all_goals simp_wf
  all_goals
    simp only [DataType.toLogicalType] at h
  all_goals
    rcases field with ⟨dt, nb⟩
  all_goals
    simp only [Field.dataType] at h
  all_goals subst h
  all_goals simp
  all_goals omega

/-- The struct arm's per-child loop.  The source iterates
`fields.iter().rev()`, draining each child's `n_columns` leaf entries from
the tail of the three parallel vectors, then reverses the collected
iterators back to declaration order.  This encoding recurses on the tail
first, which performs exactly the same drains in the same
(reverse-declaration) order, and conses afterwards, which yields the
iterators directly in declaration order (making the final reverse
implicit). -/
def structChildrenRev (columns : List Nat) (types : List PrimitiveTypeDesc)
    (fs : List Field) (structNullable : Bool) (init : List InitNested) (numRows : Nat)
    (chunkSize : Option Nat) (numValues : List Nat) (isParentNullable : Bool) :
    DResult (List NestedIter × List Nat × List PrimitiveTypeDesc × List Nat) :=
  match fs with
  | [] => .ok ([], columns, types, numValues)
  | f :: fs' => do
      let (rest, columns, types, numValues) ← structChildrenRev columns types fs'
        structNullable init numRows chunkSize numValues isParentNullable
      let init := init ++ [InitNested.struct structNullable]
      let n := n_columns f.dataType
      let (columns, segColumns) ← vecDrainLastN columns n
      let (types, segTypes) ← vecDrainLastN types n
      let (numValues, segNumValues) ← vecDrainLastN numValues n
      let r ← columns_to_iter_recursive segColumns segTypes f init numRows chunkSize
        segNumValues (isParentNullable || structNullable)
      pure (r.iter :: rest, columns, types, numValues)
termination_by sizeOf fs
decreasing_by
  all_goals simp_wf
  all_goals try simp
  all_goals omega
end

/-! ## Runtime observers of the symbolic iterator

`NestedState` bookkeeping: a leaf decoder builds one runtime `NestedState`
whose levels mirror the `InitNested` stack it received; the
`primitive`/`remove_nested` wrappers (and the decimal conversion closures)
pop the innermost (`Primitive`) entry from every yielded state.  The list
and map assemblers (`create_list`/`create_map`, outside the provided
sources; modelled from the spec, which says assemblers pop exactly one entry
per level they finalize) pop the next innermost entry.  The struct assembler
(`StructIterator`, outside the provided sources; modelled from the spec)
keeps the uniform context of one child — the last — and pops its struct
entry; the remaining children's states are dropped without being popped. -/

mutual
/-- The `NestedState` (modelled by its level stack) yielded at the top of
the iterator tree, `none` when a pop hits an empty stack or an empty struct. -/
def NestedIter.topState : NestedIter → Option (List InitNested)
  | .leaf _ _ _ init _ _ => (vecPop init).map fun p => p.2
  | .listAssemble _ child => child.topState.bind fun s => (vecPop s).map fun p => p.2
  | .mapAssemble _ child => child.topState.bind fun s => (vecPop s).map fun p => p.2
  | .structAssemble children _ =>
      (lastChildState children).bind fun s => (vecPop s).map fun p => p.2

/-- The state of the last child in a struct assembler's child list (the one
whose context the assembler consumes). -/
def lastChildState : List NestedIter → Option (List InitNested)
  | [] => none
  | [x] => x.topState
  | _ :: xs => lastChildState xs
end

mutual
/-- The `InitNested` stacks handed to each leaf decoder, in declaration
(left-to-right) order. -/
def NestedIter.leafInits : NestedIter → List (List InitNested)
  | .leaf _ _ _ init _ _ => [init]
  | .listAssemble _ child => child.leafInits
  | .mapAssemble _ child => child.leafInits
  | .structAssemble children _ => leafInitsList children

def leafInitsList : List NestedIter → List (List InitNested)
  | [] => []
  | x :: xs => x.leafInits ++ leafInitsList xs
end

mutual
/-- The parent-nullability flag handed to each leaf decoder, in declaration
order (`none` for dictionary leaves, whose decoder receives no flag). -/
def NestedIter.leafParentFlags : NestedIter → List (Option Bool)
  | .leaf _ _ _ _ _ flag => [flag]
  | .listAssemble _ child => child.leafParentFlags
  | .mapAssemble _ child => child.leafParentFlags
  | .structAssemble children _ => leafFlagsList children

def leafFlagsList : List NestedIter → List (Option Bool)
  | [] => []
  | x :: xs => x.leafParentFlags ++ leafFlagsList xs
end

mutual
/-- Total number of `InitNested` entries pushed by the dispatcher while
building this iterator: one `Primitive` per leaf, one `List` per list/map
level, and one `Struct` per child of each struct (each child receives its
own cloned context). -/
def NestedIter.totalPushes : NestedIter → Nat
  | .leaf _ _ _ _ _ _ => 1
  | .listAssemble _ child => 1 + child.totalPushes
  | .mapAssemble _ child => 1 + child.totalPushes
  | .structAssemble children _ => pushesList children

def pushesList : List NestedIter → Nat
  | [] => 0
  | x :: xs => (1 + x.totalPushes) + pushesList xs
end

mutual
/-- Total number of `NestedState` entries popped while one chunk flows to
the top: one per leaf (the wrapper), one per list/map assembler, and one per
struct assembler (which consumes a single child's struct entry; the sibling
states are dropped unpopped). -/
def NestedIter.totalPops : NestedIter → Nat
  | .leaf _ _ _ _ _ _ => 1
  | .listAssemble _ child => child.totalPops + 1
  | .mapAssemble _ child => child.totalPops + 1
  | .structAssemble children _ => popsList children + 1

def popsList : List NestedIter → Nat
  | [] => 0
  | x :: xs => x.totalPops + popsList xs
end

/-- Byte-level decoding function applied by the decimal
fixed-length-byte-array leaves to each `n`-byte chunk of the decoded
fixed-size-binary values buffer (`none` for non-decimal leaves). -/
def LeafKind.decodeFLBA : LeafKind → List Nat → Option Int
  | .decimalFromFLBA n, bytes => some (convert_i128 bytes n)
  | .decimal256FromFLBA16 n, bytes => some (I256.new (convert_i128 bytes n))
  | .decimal256FromFLBA32 _, bytes => some (convert_i256 bytes)
  | _, _ => none

/-! ## Specification-side predicates -/

mutual
/-- Well-formedness of a schema for the nesting-balance statements: every
struct has at least one field (the struct assembler consumes one child's
context, so an empty struct would panic at runtime). -/
def Field.wfB : Field → Bool
  | .mk dt _ => DataType.wfB dt

def DataType.wfB : DataType → Bool
  | .list inner => inner.wfB
  | .largeList inner => inner.wfB
  | .fixedSizeList inner _ => inner.wfB
  | .map inner _ => inner.wfB
  | .struct fields => !fields.isEmpty && fieldsWfB fields
  | _ => true

def fieldsWfB : List Field → Bool
  | [] => true
  | f :: fs => f.wfB && fieldsWfB fs
end

mutual
/-- Specification of the per-leaf parent-nullability flags: a node that
received flag `p` passes `p || own nullability` into list/map/struct
children, a non-dictionary leaf passes the received flag to its decoder, and
a dictionary leaf's decoder receives no flag.  With `p = false` at the top,
the flag received by a node is therefore true iff some strict ancestor is
nullable. -/
def expectedLeafFlags : Field → Bool → List (Option Bool)
  | .mk dt nb, p => expectedLeafFlagsDT dt nb p

def expectedLeafFlagsDT : DataType → Bool → Bool → List (Option Bool)
  | .list inner, nb, p => expectedLeafFlags inner (p || nb)
  | .largeList inner, nb, p => expectedLeafFlags inner (p || nb)
  | .fixedSizeList inner _, nb, p => expectedLeafFlags inner (p || nb)
  | .map inner _, nb, p => expectedLeafFlags inner (p || nb)
  | .struct fields, nb, p => expectedLeafFlagsList fields (p || nb)
  | .dictionary _ _ _, _, _ => [none]
  | _, _, p => [some p]

def expectedLeafFlagsList : List Field → Bool → List (Option Bool)
  | [], _ => []
  | f :: fs, p => expectedLeafFlags f p ++ expectedLeafFlagsList fs p
end

/-- The data types handled by a non-recursing (leaf) arm of the dispatcher:
null, boolean, fixed-width primitives, binary/utf8 of both offset widths,
decimals of both widths, and dictionaries. -/
def isLeafDataType (d : DataType) : Bool :=
  match d.toPhysicalType with
  | .null | .boolean | .binary | .utf8 | .largeBinary | .largeUtf8 => true
  | .primitive t =>
    match t with
    | .int8 | .int16 | .int32 | .int64 | .uint8 | .uint16 | .uint32 | .uint64
    | .float32 | .float64 | .int128 | .int256 => true
    | _ => false
  | .dictionary _ => true
  | _ => false

/-- The data types whose dispatcher arm recurses (and therefore only
propagates errors of nested calls rather than returning its own). -/
def isNestedDataType (d : DataType) : Bool :=
  match d.toLogicalType with
  | .list _ | .largeList _ | .fixedSizeList _ _ | .struct _ | .map _ _ => true
  | _ => false

/-- The invalid-argument situations: a decimal logical type paired with an
oversize fixed-length byte array physical type (the popped descriptor is the
last entry of the types vector). -/
def oversizeFLBADecimal (d : DataType) (types : List PrimitiveTypeDesc) : Prop :=
  (∃ p s n, d = .decimal p s ∧
    types.getLast? = some ⟨.fixedLenByteArray n⟩ ∧ n > 16) ∨
  (∃ p s n, d = .decimal256 p s ∧
    types.getLast? = some ⟨.fixedLenByteArray n⟩ ∧ n > 32)

end DaftNested

namespace DaftGet

/-!
Embedding of `src/daft-core/src/array/ops/get.rs`.  An arrow-backed array is
modelled by its values buffer (a list) and its optional validity bitmap (a
list of booleans, one per element); `get` returns `panics` (the Rust
`assert!`/`panic!` out-of-bounds path), `null` (Rust `None`), or the value.
-/

/-- The observable outcome of a `get` call: an out-of-bounds panic, a null
element (`None`), or a value (`Some`). -/
inductive GetResult (α : Type) where
  | panics
  | null
  | val (a : α)
deriving DecidableEq, Repr

/-- `validity.is_none_or(|validity| validity.get_bit(idx))`: a missing
bitmap means every element is valid. -/
def isValidBit (validity : Option (List Bool)) (idx : Nat) : Bool :=
  match validity with
  | none => true
  | some v => v.getD idx false

/-- `DataArray<T>` over a daft primitive type: an arrow `PrimitiveArray`
with a values buffer and an optional validity bitmap. -/
structure DataArray (α : Type) where
  values : List α
  validity : Option (List Bool)

def DataArray.len (a : DataArray α) : Nat := a.values.length

/-- `DataArray::get`: asserts `idx < len`, then returns the value iff the
validity bit is set. -/
def DataArray.get (a : DataArray α) (idx : Nat) : GetResult α :=
  if h : idx < a.values.length then
    if isValidBit a.validity idx then .val (a.values.get ⟨idx, h⟩) else .null
  else .panics

/-- The arrays covered by the `impl_array_arrow_get!` macro (`Utf8Array`,
`BooleanArray`, `BinaryArray`, `FixedSizeBinaryArray`, ...): same layout as
a primitive `DataArray`, instantiated at the macro's output type. -/
structure ArrowGetArray (α : Type) where
  values : List α
  validity : Option (List Bool)

def ArrowGetArray.len (a : ArrowGetArray α) : Nat := a.values.length

/-- The macro-generated `get`: explicit `panic!` when `idx >= len`, then the
same validity-gated value read. -/
def ArrowGetArray.get (a : ArrowGetArray α) (idx : Nat) : GetResult α :=
  if idx ≥ a.values.length then .panics
  else if h : idx < a.values.length then
    if isValidBit a.validity idx then .val (a.values.get ⟨idx, h⟩) else .null
  else .panics

/-- `NullArray`: only a length; every in-bounds access is null. -/
structure NullArray where
  length : Nat

def NullArray.get (a : NullArray) (idx : Nat) : GetResult Unit :=
  if idx < a.length then .null else .panics

/-- `ListArray`: a flat child, an offsets buffer (length = rows + 1), and an
optional validity bitmap.  `Series.slice` is modelled as a sublist. -/
structure ListArray (α : Type) where
  flatChild : List α
  offsets : List Nat
  validity : Option (List Bool)

def ListArray.len (a : ListArray α) : Nat := a.offsets.length - 1

/-- Modelled from the spec: `ListArray::is_valid` (defined with the array
types outside the provided sources) reads the validity bitmap, a missing
bitmap meaning valid. -/
def ListArray.is_valid (a : ListArray α) (idx : Nat) : Bool :=
  isValidBit a.validity idx

def seriesSlice (l : List α) (start stop : Nat) : List α :=
  (l.drop start).take (stop - start)

/-- `ListArray::get`: asserts bounds, then returns the child slice
`offsets[idx] .. offsets[idx+1]` iff the row is valid. -/
def ListArray.get (a : ListArray α) (idx : Nat) : GetResult (List α) :=
  if idx < a.len then
    if a.is_valid idx then
      .val (seriesSlice a.flatChild (a.offsets.getD idx 0) (a.offsets.getD (idx + 1) 0))
    else .null
  else .panics

/-- `FixedSizeListArray`: a flat child, the fixed per-row element count
(from the data type), and an optional validity bitmap.  Modelled from the
spec where the array definition is outside the provided sources: the row
count is `flat_child.len() / fixed_element_len()`. -/
structure FixedSizeListArray (α : Type) where
  flatChild : List α
  fixedLen : Nat
  validity : Option (List Bool)

def FixedSizeListArray.len (a : FixedSizeListArray α) : Nat :=
  a.flatChild.length / a.fixedLen

def FixedSizeListArray.is_valid (a : FixedSizeListArray α) (idx : Nat) : Bool :=
  isValidBit a.validity idx

/-- `FixedSizeListArray::get`: asserts bounds, then returns the child slice
`idx * fixed_len .. (idx + 1) * fixed_len` iff the row is valid. -/
def FixedSizeListArray.get (a : FixedSizeListArray α) (idx : Nat) : GetResult (List α) :=
  if idx < a.len then
    if a.is_valid idx then
      .val (seriesSlice a.flatChild (idx * a.fixedLen) ((idx + 1) * a.fixedLen))
    else .null
  else .panics

/-- C10: for every modelled array type exposing `get` (primitive
`DataArray`, the arrow-backed macro arrays, `NullArray`, `ListArray`,
`FixedSizeListArray`), `get idx` panics exactly when `idx >= len`; for
`idx < len` it returns `null` iff the element's validity bit is unset (with
`NullArray` returning `null` at every in-bounds index), and otherwise
returns the element value (the buffer value, or the child slice for list
arrays). -/
theorem get_bounds_and_null_semantics :
    (∀ (α : Type) (a : DataArray α) (idx : Nat),
      (a.get idx = .panics ↔ a.len ≤ idx)
      ∧ (idx < a.len → ((a.get idx = .null) ↔ isValidBit a.validity idx = false))
      ∧ (∀ x, a.values.get? idx = some x → isValidBit a.validity idx = true →
          a.get idx = .val x))
    ∧ (∀ (α : Type) (a : ArrowGetArray α) (idx : Nat),
      (a.get idx = .panics ↔ a.len ≤ idx)
      ∧ (idx < a.len → ((a.get idx = .null) ↔ isValidBit a.validity idx = false))
      ∧ (∀ x, a.values.get? idx = some x → isValidBit a.validity idx = true →
          a.get idx = .val x))
    ∧ (∀ (a : NullArray) (idx : Nat),
      (a.get idx = .panics ↔ a.length ≤ idx)
      ∧ (idx < a.length → a.get idx = .null))
    ∧ (∀ (α : Type) (a : ListArray α) (idx : Nat),
      (a.get idx = .panics ↔ a.len ≤ idx)
      ∧ (idx < a.len → ((a.get idx = .null) ↔ a.is_valid idx = false))
      ∧ (idx < a.len → a.is_valid idx = true →
          a.get idx = .val (seriesSlice a.flatChild (a.offsets.getD idx 0)
            (a.offsets.getD (idx + 1) 0))))
    ∧ (∀ (α : Type) (a : FixedSizeListArray α) (idx : Nat),
      (a.get idx = .panics ↔ a.len ≤ idx)
      ∧ (idx < a.len → ((a.get idx = .null) ↔ a.is_valid idx = false))
      ∧ (idx < a.len → a.is_valid idx = true →
          a.get idx = .val (seriesSlice a.flatChild (idx * a.fixedLen)
            ((idx + 1) * a.fixedLen)))) := by
  refine ⟨?_, ?_, ?_, ?_, ?_⟩
  · intro α a idx
    refine ⟨?_, ?_, ?_⟩
    · by_cases h : idx < a.values.length <;>
        [skip; skip] <;>
      · cases hv : isValidBit a.validity idx <;>
          simp [DataArray.get, DataArray.len, h, hv] <;> omega
    · intro hlt
      cases hv : isValidBit a.validity idx <;>
        simp [DataArray.get, DataArray.len, hv, DataArray.len] at hlt ⊢ <;>
        simp [hlt]
    · intro x hx hv
      obtain ⟨hb, hget⟩ := List.get?_eq_some.mp hx
      simp [DataArray.get, DataArray.len, hb, hv]
      exact hget
  · intro α a idx
    refine ⟨?_, ?_, ?_⟩
    · by_cases h : idx < a.values.length <;>
      · cases hv : isValidBit a.validity idx <;>
          simp [ArrowGetArray.get, ArrowGetArray.len, h, hv] <;> omega
    · intro hlt
      cases hv : isValidBit a.validity idx <;>
        simp [ArrowGetArray.get, ArrowGetArray.len, hv] at hlt ⊢ <;>
        simp [hlt, Nat.not_le.mpr hlt]
    · intro x hx hv
      obtain ⟨hb, hget⟩ := List.get?_eq_some.mp hx
      simp [ArrowGetArray.get, ArrowGetArray.len, hb, hv, Nat.not_le.mpr hb]
      exact hget
  · intro a idx
    constructor
    · by_cases h : idx < a.length <;> simp [NullArray.get, h] <;> omega
    · intro h
      simp [NullArray.get, h]
  · intro α a idx
    refine ⟨?_, ?_, ?_⟩
    · by_cases h : idx < a.len <;>
      · cases hv : a.is_valid idx <;>
          simp [ListArray.get, h, hv] <;> omega
    · intro hlt
      cases hv : a.is_valid idx <;> simp [ListArray.get, hlt, hv]
    · intro hlt hv
      simp [ListArray.get, hlt, hv]
  · intro α a idx
    refine ⟨?_, ?_, ?_⟩
    · by_cases h : idx < a.len <;>
      · cases hv : a.is_valid idx <;>
          simp [FixedSizeListArray.get, h, hv] <;> omega
    · intro hlt
      cases hv : a.is_valid idx <;> simp [FixedSizeListArray.get, hlt, hv]
    · intro hlt hv
      simp [FixedSizeListArray.get, hlt, hv]


/-- C10 witness: a two-element primitive array with validity
`[true, false]`, a null array, and a list array at concrete indices. -/
theorem get_bounds_and_null_semantics_witness :
    (DataArray.get (⟨[10, 20], some [true, false]⟩ : DataArray Nat) 2 = .panics)
    ∧ (DataArray.get (⟨[10, 20], some [true, false]⟩ : DataArray Nat) 1 = .null)
    ∧ (DataArray.get (⟨[10, 20], some [true, false]⟩ : DataArray Nat) 0 = .val 10)
    ∧ (NullArray.get ⟨2⟩ 0 = .null)
    ∧ (ListArray.get (⟨[1, 2, 3], [0, 2, 2, 3], some [true, false, true]⟩ : ListArray Nat)
        0 = .val [1, 2]) :=
  ⟨((get_bounds_and_null_semantics.1 Nat ⟨[10, 20], some [true, false]⟩ 2).1).mpr
     (by decide),
   ((get_bounds_and_null_semantics.1 Nat ⟨[10, 20], some [true, false]⟩ 1).2.1
     (by decide)).mpr (by decide),
   (get_bounds_and_null_semantics.1 Nat ⟨[10, 20], some [true, false]⟩ 0).2.2 10
     (by decide) (by decide),
   (get_bounds_and_null_semantics.2.2.1 ⟨2⟩ 0).2 (by decide),
   (get_bounds_and_null_semantics.2.2.2.1 Nat
     ⟨[1, 2, 3], [0, 2, 2, 3], some [true, false, true]⟩ 0).2.2 (by decide) (by decide)⟩

end DaftGet

namespace DaftNested

/-! ## Helper lemmas for decomposing embedded computations -/

@[simp] theorem DResult.bind_ok (a : α) (f : α → DResult β) :
    DResult.bind (.ok a) f = f a := rfl

@[simp] theorem DResult.bind_err (e : Error) (f : α → DResult β) :
    DResult.bind (.err e) f = .err e := rfl

@[simp] theorem DResult.bind_panicked (f : α → DResult β) :
    DResult.bind .panicked f = .panicked := rfl

@[simp] theorem DResult.monad_bind (x : DResult α) (f : α → DResult β) :
    x >>= f = x.bind f := rfl

@[simp] theorem DResult.monad_pure (a : α) : (pure a : DResult α) = .ok a := rfl

@[simp] theorem vecPop_append_singleton (l : List α) (x : α) :
    vecPop (l ++ [x]) = some (x, l) := by
  simp [vecPop]

@[simp] theorem vecPop_nil : vecPop ([] : List α) = none := rfl

@[simp] theorem vecPopUnwrap_append_singleton (l : List α) (x : α) :
    vecPopUnwrap (l ++ [x]) = .ok (x, l) := by
  simp [vecPopUnwrap]

@[simp] theorem vecPopUnwrap_nil : vecPopUnwrap ([] : List α) = .panicked := rfl

theorem vecDrainLastN_append (xs ys : List α) :
    vecDrainLastN (xs ++ ys) ys.length = .ok (xs, ys) := by
  have h : (xs ++ ys).length - ys.length = xs.length := by
    simp
  simp [vecDrainLastN, h, List.take_append, List.drop_append]

@[simp] theorem DResult.bind_eq_ok {x : DResult α} {f : α → DResult β} {b : β} :
    x.bind f = .ok b ↔ ∃ a, x = .ok a ∧ f a = .ok b := by
  cases x <;> simp [DResult.bind]

theorem vecPop_eq_some {l : List α} {p : α × List α} :
    vecPop l = some p ↔ l.getLast? = some p.1 ∧ p.2 = l.dropLast := by
  rcases p with ⟨x, l2⟩
  cases h : l.getLast? <;> simp [vecPop, h]
  intro h2
  exact eq_comm

@[simp] theorem vecPopUnwrap_eq_ok {l : List α} {p : α × List α} :
    vecPopUnwrap l = .ok p ↔ vecPop l = some p := by
  cases h : vecPop l <;> simp [vecPopUnwrap, h]

@[simp] theorem DResult.bind_eq_err {x : DResult α} {f : α → DResult β} {e : Error} :
    x.bind f = .err e ↔ x = .err e ∨ ∃ a, x = .ok a ∧ f a = .err e := by
  cases x <;> simp [DResult.bind]

@[simp] theorem vecPopUnwrap_eq_err {l : List α} {e : Error} :
    vecPopUnwrap l = .err e ↔ False := by
  cases h : vecPop l <;> simp [vecPopUnwrap, h]

@[simp] theorem vecDrainLastN_eq_err {l : List α} {n : Nat} {e : Error} :
    vecDrainLastN l n = .err e ↔ False := by
  by_cases h : n ≤ l.length <;> simp [vecDrainLastN, h]

/-- Every error returned by `dict_read` is a not-yet-implemented error. -/
theorem dict_read_err_imp_nyi {col : Nat} {init : List InitNested}
    {ty : PrimitiveTypeDesc} {k : IntegerType} {dt : DataType} {nR : Nat}
    {cz : Option Nat} {e : Error} (h : dict_read col init ty k dt nR cz = .err e) :
    ∃ s, e = .nyi s := by
  rcases dt <;> simp [dict_read] at h
  rename_i k2 v sorted
  rcases v <;> simp [dict_read, DataType.toLogicalType] at h <;>
    first
      | exact ⟨_, h.symm⟩
      | exact ⟨_, h⟩
      | (rename_i u
         rcases u <;> simp at h <;>
           first
             | exact ⟨_, h.symm⟩
             | exact ⟨_, h⟩)

/-- Every error returned directly by a non-recursing arm of the dispatcher
is not-yet-implemented, except the oversize decimal fixed-length byte array
cases, which are invalid-argument. -/
theorem dispatch_direct_err_classes
    (c : List Nat) (t : List PrimitiveTypeDesc) (field : Field) (init : List InitNested)
    (nR : Nat) (cz : Option Nat) (nv : List Nat) (p : Bool) (e : Error)
    (hnn : isNestedDataType field.dataType = false)
    (h : columns_to_iter_recursive c t field init nR cz nv p = .err e) :
    (∃ s, e = .nyi s) ∨ ((∃ s, e = .invalidArgumentError s)
      ∧ oversizeFLBADecimal field.dataType t) := by
  rcases field with ⟨dt, nb⟩
  simp only [Field.dataType] at hnn h ⊢
  cases dt
  all_goals try (simp [isNestedDataType, DataType.toLogicalType] at hnn; done)
  all_goals try (simp [columns_to_iter_recursive, Field.dataType, Field.isNullable,
    DataType.toPhysicalType, DataType.toLogicalType] at h; done)
  -- residual logical types reaching the catch-all bucket
  case fixedSizeBinary n =>
    simp [columns_to_iter_recursive, Field.dataType, Field.isNullable,
      DataType.toPhysicalType, DataType.toLogicalType] at h
    first
      | exact Or.inl ⟨_, h.symm⟩
      | exact Or.inl ⟨_, h⟩
  case interval u =>
    rcases u <;> simp [columns_to_iter_recursive, Field.dataType, Field.isNullable,
      DataType.toPhysicalType, DataType.toLogicalType] at h <;>
      first
        | exact Or.inl ⟨_, h.symm⟩
        | exact Or.inl ⟨_, h⟩
  case uint32 =>
    simp [columns_to_iter_recursive, Field.dataType, Field.isNullable,
      DataType.toPhysicalType, DataType.toLogicalType] at h
    obtain ⟨⟨pt⟩, t2, hpop, h⟩ := h
    rcases pt <;> simp at h <;>
      first
        | exact Or.inl ⟨_, h.symm⟩
        | exact Or.inl ⟨_, h⟩
  case dictionary k v sorted =>
    simp only [columns_to_iter_recursive, Field.dataType, Field.isNullable,
      DataType.toPhysicalType, DataType.toLogicalType, DResult.monad_bind,
      DResult.monad_pure, DResult.bind_eq_err, vecPopUnwrap_eq_err, vecPopUnwrap_eq_ok,
      false_or, Prod.exists] at h
    obtain ⟨ty, t2, hpop, h⟩ := h
    obtain ⟨col2, c2, hcpop, h⟩ := h
    rcases h with h | ⟨it, hit, hcontra⟩
    · exact Or.inl (dict_read_err_imp_nyi h)
    · exact absurd hcontra (by simp)
  case decimal dp ds =>
    simp [columns_to_iter_recursive, Field.dataType, Field.isNullable,
      DataType.toPhysicalType, DataType.toLogicalType] at h
    obtain ⟨⟨pt⟩, t2, hpop, h⟩ := h
    have hlast : t.getLast? = some ⟨pt⟩ := (vecPop_eq_some.mp hpop).1
    rcases pt <;> simp at h
    case fixedLenByteArray n =>
      split at h
      · simp at h
        refine Or.inr ⟨⟨_, h.symm⟩, Or.inl ⟨dp, ds, n, rfl, hlast, by assumption⟩⟩
      · simp at h
    all_goals
      first
        | exact Or.inl ⟨_, h.symm⟩
        | exact Or.inl ⟨_, h⟩
  case decimal256 dp ds =>
    simp [columns_to_iter_recursive, Field.dataType, Field.isNullable,
      DataType.toPhysicalType, DataType.toLogicalType] at h
    obtain ⟨⟨pt⟩, t2, hpop, h⟩ := h
    have hlast : t.getLast? = some ⟨pt⟩ := (vecPop_eq_some.mp hpop).1
    rcases pt <;> simp at h
    case fixedLenByteArray n =>
      split at h
      · simp at h
      · split at h
        · simp at h
        · simp at h
          refine Or.inr ⟨⟨_, h.symm⟩, Or.inr ⟨dp, ds, n, rfl, hlast, by omega⟩⟩
    all_goals
      first
        | exact Or.inl ⟨_, h.symm⟩
        | exact Or.inl ⟨_, h⟩

/-! ## Claim theorems -/

/-- C3: for a UInt32 field the dispatcher inspects the popped physical type
hint: physical Int32 selects the 32-bit leaf decoder with the `i32 as u32`
cast, physical Int64 selects the 64-bit leaf decoder with the `i64 as u32`
cast, any other physical type is a not-yet-implemented error naming it, and
the two casts agree on every underlying numeric value. -/
theorem uint32_dual_representation
    (cs : List Nat) (col : Nat) (ts : List PrimitiveTypeDesc) (nvs : List Nat) (v : Nat)
    (nb p : Bool) (init : List InitNested) (numRows : Nat) (chunkSize : Option Nat) :
    (columns_to_iter_recursive (cs ++ [col]) (ts ++ [⟨.int32⟩]) (.mk .uint32 nb) init
        numRows chunkSize (nvs ++ [v]) p
      = .ok ⟨.leaf (.primitiveLeaf .i32AsU32) .uint32 col (init ++ [.primitive nb])
          (some v) (some p), cs, ts, nvs⟩)
    ∧ (columns_to_iter_recursive (cs ++ [col]) (ts ++ [⟨.int64⟩]) (.mk .uint32 nb) init
        numRows chunkSize (nvs ++ [v]) p
      = .ok ⟨.leaf (.primitiveLeaf .i64AsU32) .uint32 col (init ++ [.primitive nb])
          (some v) (some p), cs, ts, nvs⟩)
    ∧ (∀ other : ParquetPhysicalType, other ≠ .int32 → other ≠ .int64 →
        columns_to_iter_recursive (cs ++ [col]) (ts ++ [⟨other⟩]) (.mk .uint32 nb) init
          numRows chunkSize (nvs ++ [v]) p
        = .err (.nyi ("Deserializing UInt32 from " ++ other.render ++ " parquet")))
    ∧ (∀ x : Int, CastKind.apply .i32AsU32 x = CastKind.apply .i64AsU32 x) := by
  refine ⟨?_, ?_, ?_, ?_⟩
  · simp [columns_to_iter_recursive, Field.dataType, Field.isNullable, DataType.toPhysicalType]
  · simp [columns_to_iter_recursive, Field.dataType, Field.isNullable, DataType.toPhysicalType]
  · intro other h1 h2
    rcases other <;>
      simp_all [columns_to_iter_recursive, Field.dataType, Field.isNullable,
        DataType.toPhysicalType]
  · intro x
    rfl

/-- C3 witness: the not-yet-implemented arm at physical `ByteArray`. -/
theorem uint32_dual_representation_witness :
    columns_to_iter_recursive ([] ++ [7]) ([] ++ [⟨.byteArray⟩]) (.mk .uint32 true) [] 1
      none ([] ++ [4]) false
    = .err (.nyi ("Deserializing UInt32 from " ++
        ParquetPhysicalType.render .byteArray ++ " parquet")) :=
  (uint32_dual_representation [] 7 [] [] 4 true false [] 1 none).2.2.1 .byteArray
    (by decide) (by decide)

/-- C7: a dictionary whose value logical type is Int64, Date64, Time64 or
Duration is decoded with the `i64 as i32` cast: the decoded value is the
physical value reduced modulo `2^32` and reinterpreted as a signed 32-bit
integer (congruent mod `2^32`, landing in `[-2^31, 2^31)`), so values
outside the i32 range are not preserved. -/
theorem dict_read_i64_truncates_to_i32
    (col : Nat) (init : List InitNested) (ty : PrimitiveTypeDesc) (k k2 : IntegerType)
    (v : DataType) (sorted : Bool) (numRows : Nat) (chunkSize : Option Nat) :
    (v = .int64 ∨ v = .date64 ∨ (∃ u, v = .time64 u) ∨ (∃ u, v = .duration u) →
      dict_read col init ty k (.dictionary k2 v sorted) numRows chunkSize
        = .ok (.leaf (.dictPrimitiveLeaf k .i64AsI32) (.dictionary k2 v sorted) col init
            none none))
    ∧ (∀ x : Int, CastKind.apply .i64AsI32 x = wrapS 32 x)
    ∧ (∀ x : Int, CastKind.apply .i64AsI32 x % 2 ^ 32 = x % 2 ^ 32
        ∧ -(2 ^ 31) ≤ CastKind.apply .i64AsI32 x ∧ CastKind.apply .i64AsI32 x < 2 ^ 31)
    ∧ CastKind.apply .i64AsI32 (2 ^ 31) ≠ 2 ^ 31 := by
  refine ⟨?_, fun _ => rfl, ?_, by decide⟩
  · rintro (rfl | rfl | ⟨u, rfl⟩ | ⟨u, rfl⟩) <;>
      simp [dict_read, DataType.toLogicalType]
  · intro x
    simp only [CastKind.apply, wrapS]
    norm_num
    omega

/-- C7 witness: the Int64 dictionary value type at a concrete input. -/
theorem dict_read_i64_truncates_to_i32_witness :
    dict_read 3 [.primitive true] ⟨.int64⟩ .int32 (.dictionary .int32 .int64 false) 5 none
      = .ok (.leaf (.dictPrimitiveLeaf .int32 .i64AsI32) (.dictionary .int32 .int64 false)
          3 [.primitive true] none none) :=
  (dict_read_i64_truncates_to_i32 3 [.primitive true] ⟨.int64⟩ .int32 .int32 .int64 false
    5 none).1 (.inl rfl)

/-- C1: a Decimal field with physical FixedLenByteArray(n) is an
invalid-argument error for `n > 16` and otherwise decodes through the
fixed-size-binary leaf whose chunks are reinterpreted as big-endian
two's-complement 128-bit integers; a Decimal256 field is an
invalid-argument error for `n > 32`, decodes via the value-preserving
128-to-256-bit widening of the same big-endian reinterpretation for
`n ≤ 16`, and decodes directly as a 256-bit big-endian two's-complement
integer for `16 < n ≤ 32`. -/
theorem decimal_width_boundaries
    (p s n : Nat) (nb : Bool) (cs : List Nat) (col : Nat) (ts : List PrimitiveTypeDesc)
    (nvs : List Nat) (v : Nat) (init : List InitNested) (numRows : Nat)
    (chunkSize : Option Nat) (pn : Bool) :
    (16 < n →
      columns_to_iter_recursive (cs ++ [col]) (ts ++ [⟨.fixedLenByteArray n⟩])
          (.mk (.decimal p s) nb) init numRows chunkSize (nvs ++ [v]) pn
        = .err (.invalidArgumentError
            ("Cannot decode Decimal128 type from FixedLenByteArray of len " ++ toString n)))
    ∧ (n ≤ 16 →
      columns_to_iter_recursive (cs ++ [col]) (ts ++ [⟨.fixedLenByteArray n⟩])
          (.mk (.decimal p s) nb) init numRows chunkSize (nvs ++ [v]) pn
        = .ok ⟨.leaf (.decimalFromFLBA n) (.decimal p s) col (init ++ [.primitive nb])
            (some v) (some pn), cs, ts, nvs⟩)
    ∧ (∀ bytes : List Nat,
        LeafKind.decodeFLBA (.decimalFromFLBA n) bytes = some (beTwosComplement bytes))
    ∧ (32 < n →
      columns_to_iter_recursive (cs ++ [col]) (ts ++ [⟨.fixedLenByteArray n⟩])
          (.mk (.decimal256 p s) nb) init numRows chunkSize (nvs ++ [v]) pn
        = .err (.invalidArgumentError
            ("Cannot decode Decimal256 type from FixedLenByteArray of len " ++ toString n)))
    ∧ (n ≤ 16 →
      columns_to_iter_recursive (cs ++ [col]) (ts ++ [⟨.fixedLenByteArray n⟩])
          (.mk (.decimal256 p s) nb) init numRows chunkSize (nvs ++ [v]) pn
        = .ok ⟨.leaf (.decimal256FromFLBA16 n) (.decimal256 p s) col
            (init ++ [.primitive nb]) (some v) (some pn), cs, ts, nvs⟩)
    ∧ (∀ bytes : List Nat,
        LeafKind.decodeFLBA (.decimal256FromFLBA16 n) bytes
          = some (I256.new (beTwosComplement bytes)))
    ∧ (16 < n → n ≤ 32 →
      columns_to_iter_recursive (cs ++ [col]) (ts ++ [⟨.fixedLenByteArray n⟩])
          (.mk (.decimal256 p s) nb) init numRows chunkSize (nvs ++ [v]) pn
        = .ok ⟨.leaf (.decimal256FromFLBA32 n) (.decimal256 p s) col
            (init ++ [.primitive nb]) (some v) (some pn), cs, ts, nvs⟩)
    ∧ (∀ bytes : List Nat,
        LeafKind.decodeFLBA (.decimal256FromFLBA32 n) bytes
          = some (beTwosComplement bytes)) := by
  refine ⟨?_, ?_, fun _ => rfl, ?_, ?_, fun _ => rfl, ?_, fun _ => rfl⟩
  · intro h
    simp [columns_to_iter_recursive, Field.dataType, Field.isNullable,
      DataType.toPhysicalType, DataType.toLogicalType, h]
  · intro h
    have h2 : ¬ 16 < n := by omega
    simp [columns_to_iter_recursive, Field.dataType, Field.isNullable,
      DataType.toPhysicalType, DataType.toLogicalType, h2]
  · intro h
    have h2 : ¬ n ≤ 16 := by omega
    have h3 : ¬ n ≤ 32 := by omega
    simp [columns_to_iter_recursive, Field.dataType, Field.isNullable,
      DataType.toPhysicalType, DataType.toLogicalType, h2, h3]
  · intro h
    simp [columns_to_iter_recursive, Field.dataType, Field.isNullable,
      DataType.toPhysicalType, DataType.toLogicalType, h]
  · intro h h3
    have h2 : ¬ n ≤ 16 := by omega
    simp [columns_to_iter_recursive, Field.dataType, Field.isNullable,
      DataType.toPhysicalType, DataType.toLogicalType, h2, h3]

/-- C8: a dictionary-typed field pops one entry from the types vector and
one from the columns vector, leaves the num-values vector untouched, and
`dict_read` receives no expected-value-count at all: the dispatch result is
the bind of `dict_read` applied without any value count, with the untouched
num-values vector merely passed through, so the produced iterator (and any
error) is identical for any two num-values vectors. -/
theorem dictionary_frame_effect
    (cs : List Nat) (col : Nat) (ts : List PrimitiveTypeDesc) (ty : PrimitiveTypeDesc)
    (k : IntegerType) (v : DataType) (sorted nb : Bool) (init : List InitNested)
    (nR : Nat) (cz : Option Nat) (nv : List Nat) (p : Bool) :
    (columns_to_iter_recursive (cs ++ [col]) (ts ++ [ty]) (.mk (.dictionary k v sorted) nb)
        init nR cz nv p
      = DResult.bind (dict_read col (init ++ [.primitive nb]) ty k (.dictionary k v sorted)
          nR cz) (fun iter => .ok ⟨iter, cs, ts, nv⟩))
    ∧ (∀ nv' : List Nat,
        DResult.bind (columns_to_iter_recursive (cs ++ [col]) (ts ++ [ty])
            (.mk (.dictionary k v sorted) nb) init nR cz nv p) (fun r => .ok r.iter)
        = DResult.bind (columns_to_iter_recursive (cs ++ [col]) (ts ++ [ty])
            (.mk (.dictionary k v sorted) nb) init nR cz nv' p) (fun r => .ok r.iter)) := by
  have key : ∀ nv0 : List Nat,
      columns_to_iter_recursive (cs ++ [col]) (ts ++ [ty]) (.mk (.dictionary k v sorted) nb)
        init nR cz nv0 p
      = DResult.bind (dict_read col (init ++ [.primitive nb]) ty k (.dictionary k v sorted)
          nR cz) (fun iter => .ok ⟨iter, cs, ts, nv0⟩) := by
    intro nv0
    simp [columns_to_iter_recursive, Field.dataType, Field.isNullable,
      DataType.toPhysicalType, DataType.toLogicalType]
  refine ⟨key nv, fun nv' => ?_⟩
  rw [key nv, key nv']
  cases dict_read col (init ++ [.primitive nb]) ty k (.dictionary k v sorted) nR cz <;>
    simp [DResult.bind]

/-- C5: list, large-list, fixed-size-list and map fields consume nothing
from the columns/types/num-values vectors themselves — the dispatch result
is exactly the recursive call on the inner field with the same vectors,
wrapped in the list/map assembler — while every leaf arm (primitive,
boolean, binary, null, decimal, dictionary) pops exactly one entry from the
columns vector and one from the types vector. -/
theorem list_map_pass_through_leaf_pop :
    (∀ (c : List Nat) (t : List PrimitiveTypeDesc) (inner : Field) (nb : Bool)
        (init : List InitNested) (nR : Nat) (cz : Option Nat) (nv : List Nat) (p : Bool),
      columns_to_iter_recursive c t (.mk (.list inner) nb) init nR cz nv p
        = DResult.bind (columns_to_iter_recursive c t inner (init ++ [.list nb]) nR cz nv
            (p || nb))
            (fun r => .ok ⟨.listAssemble (.list inner) r.iter, r.restColumns, r.restTypes,
              r.restNumValues⟩))
    ∧ (∀ (c : List Nat) (t : List PrimitiveTypeDesc) (inner : Field) (nb : Bool)
        (init : List InitNested) (nR : Nat) (cz : Option Nat) (nv : List Nat) (p : Bool),
      columns_to_iter_recursive c t (.mk (.largeList inner) nb) init nR cz nv p
        = DResult.bind (columns_to_iter_recursive c t inner (init ++ [.list nb]) nR cz nv
            (p || nb))
            (fun r => .ok ⟨.listAssemble (.largeList inner) r.iter, r.restColumns,
              r.restTypes, r.restNumValues⟩))
    ∧ (∀ (c : List Nat) (t : List PrimitiveTypeDesc) (inner : Field) (sz : Nat) (nb : Bool)
        (init : List InitNested) (nR : Nat) (cz : Option Nat) (nv : List Nat) (p : Bool),
      columns_to_iter_recursive c t (.mk (.fixedSizeList inner sz) nb) init nR cz nv p
        = DResult.bind (columns_to_iter_recursive c t inner (init ++ [.list nb]) nR cz nv
            (p || nb))
            (fun r => .ok ⟨.listAssemble (.fixedSizeList inner sz) r.iter, r.restColumns,
              r.restTypes, r.restNumValues⟩))
    ∧ (∀ (c : List Nat) (t : List PrimitiveTypeDesc) (inner : Field) (sorted nb : Bool)
        (init : List InitNested) (nR : Nat) (cz : Option Nat) (nv : List Nat) (p : Bool),
      columns_to_iter_recursive c t (.mk (.map inner sorted) nb) init nR cz nv p
        = DResult.bind (columns_to_iter_recursive c t inner (init ++ [.list nb]) nR cz nv
            (p || nb))
            (fun r => .ok ⟨.mapAssemble (.map inner sorted) r.iter, r.restColumns,
              r.restTypes, r.restNumValues⟩))
    ∧ (∀ (dt : DataType), isLeafDataType dt →
        ∀ (cs : List Nat) (col : Nat) (ts : List PrimitiveTypeDesc)
          (ty : PrimitiveTypeDesc) (nb : Bool) (init : List InitNested) (nR : Nat)
          (cz : Option Nat) (nv : List Nat) (p : Bool) (r : DispatchOut),
        columns_to_iter_recursive (cs ++ [col]) (ts ++ [ty]) (.mk dt nb) init nR cz nv p
          = .ok r →
        r.restColumns = cs ∧ r.restTypes = ts) := by
  refine ⟨?_, ?_, ?_, ?_, ?_⟩
  · intro c t inner nb init nR cz nv p
    conv_lhs => rw [columns_to_iter_recursive]
    simp only [Field.dataType, Field.isNullable, DataType.toPhysicalType,
      DataType.toLogicalType, DResult.monad_bind, DResult.monad_pure]
  · intro c t inner nb init nR cz nv p
    conv_lhs => rw [columns_to_iter_recursive]
    simp only [Field.dataType, Field.isNullable, DataType.toPhysicalType,
      DataType.toLogicalType, DResult.monad_bind, DResult.monad_pure]
  · intro c t inner sz nb init nR cz nv p
    conv_lhs => rw [columns_to_iter_recursive]
    simp only [Field.dataType, Field.isNullable, DataType.toPhysicalType,
      DataType.toLogicalType, DResult.monad_bind, DResult.monad_pure]
  · intro c t inner sorted nb init nR cz nv p
    conv_lhs => rw [columns_to_iter_recursive]
    simp only [Field.dataType, Field.isNullable, DataType.toPhysicalType,
      DataType.toLogicalType, DResult.monad_bind, DResult.monad_pure]
  · intro dt hleaf cs col ts ty nb init nR cz nv p r hok
    cases dt <;>
      simp [isLeafDataType, DataType.toPhysicalType] at hleaf <;>
      simp [columns_to_iter_recursive, Field.dataType, Field.isNullable,
        DataType.toPhysicalType, DataType.toLogicalType] at hok <;>
      first
        | (obtain ⟨a, b, hv, rfl⟩ := hok
           exact ⟨rfl, rfl⟩)
        | (obtain ⟨it, hd, rfl⟩ := hok
           exact ⟨rfl, rfl⟩)
        | (split at hok <;> (try split at hok) <;> (try split at hok) <;> simp at hok <;>
            (obtain ⟨a, b, hv, rfl⟩ := hok
             exact ⟨rfl, rfl⟩))
        | skip

/-- C5 witness: an Int32 leaf at a concrete input pops exactly its own
column and type entry. -/
theorem list_map_pass_through_leaf_pop_witness :
    (⟨.leaf (.primitiveLeaf .i32Id) .int32 5 [.primitive true] (some 3) (some false),
        [], [], []⟩ : DispatchOut).restColumns = []
    ∧ (⟨.leaf (.primitiveLeaf .i32Id) .int32 5 [.primitive true] (some 3) (some false),
        [], [], []⟩ : DispatchOut).restTypes = [] :=
  list_map_pass_through_leaf_pop.2.2.2.2 .int32 (by decide) [] 5 [] ⟨.int32⟩ true [] 1
    none [3] false _
    (by simp [columns_to_iter_recursive, Field.dataType, Field.isNullable,
      DataType.toPhysicalType, vecPopUnwrap, vecPop])

/-- C6: every error returned directly by a non-recursing arm of
`columns_to_iter_recursive` or by `dict_read` is one of exactly two classes:
not-yet-implemented, or invalid-argument — and the latter only when the
field is a decimal whose popped physical type is an oversize fixed-length
byte array for the requested decimal width. -/
theorem error_taxonomy :
    (∀ (c : List Nat) (t : List PrimitiveTypeDesc) (field : Field)
        (init : List InitNested) (nR : Nat) (cz : Option Nat) (nv : List Nat) (p : Bool)
        (e : Error),
      isNestedDataType field.dataType = false →
      columns_to_iter_recursive c t field init nR cz nv p = .err e →
      (∃ s, e = .nyi s) ∨ ((∃ s, e = .invalidArgumentError s)
        ∧ oversizeFLBADecimal field.dataType t))
    ∧ (∀ (col : Nat) (init : List InitNested) (ty : PrimitiveTypeDesc) (k : IntegerType)
        (dt : DataType) (nR : Nat) (cz : Option Nat) (e : Error),
      dict_read col init ty k dt nR cz = .err e → ∃ s, e = .nyi s) :=
  ⟨fun c t field init nR cz nv p e hnn h =>
    dispatch_direct_err_classes c t field init nR cz nv p e hnn h,
   fun _ _ _ _ _ _ _ _ h => dict_read_err_imp_nyi h⟩

/-- C6 witness: a residual logical type (FixedSizeBinary) produces a
not-yet-implemented error at a concrete input. -/
theorem error_taxonomy_witness :
    (∃ s, Error.nyi ("Deserializing type " ++ DataType.render (.fixedSizeBinary 3)
        ++ " from parquet") = .nyi s)
    ∨ ((∃ s, Error.nyi ("Deserializing type " ++ DataType.render (.fixedSizeBinary 3)
        ++ " from parquet") = .invalidArgumentError s)
      ∧ oversizeFLBADecimal (Field.mk (.fixedSizeBinary 3) false).dataType []) :=
  error_taxonomy.1 [] [] (.mk (.fixedSizeBinary 3) false) [] 1 none [] false _
    (by decide)
    (by simp [columns_to_iter_recursive, Field.dataType, Field.isNullable,
      DataType.toPhysicalType, DataType.toLogicalType])

/-- Net effect of the struct arm's reverse-order tail drains: when the three
parallel vectors split into a rest prefix followed by one consecutive
segment per child (in declaration order, each of its child's `n_columns`
size), and each child's dispatch on its own segment succeeds, the helper
returns the children's iterators in declaration order together with the
rest prefixes. -/
theorem structChildrenRev_characterization
    (sn : Bool) (init : List InitNested) (nR : Nat) (cz : Option Nat) (pn : Bool) :
    ∀ (fs : List Field)
      (comps : List ((List Nat × List PrimitiveTypeDesc × List Nat) × DispatchOut))
      (restC : List Nat) (restT : List PrimitiveTypeDesc) (restNV : List Nat),
    List.Forall₂ (fun f c =>
      c.1.1.length = n_columns f.dataType
      ∧ c.1.2.1.length = n_columns f.dataType
      ∧ c.1.2.2.length = n_columns f.dataType
      ∧ columns_to_iter_recursive c.1.1 c.1.2.1 f (init ++ [.struct sn]) nR cz c.1.2.2
          (pn || sn) = .ok c.2) fs comps →
    structChildrenRev (restC ++ (comps.map (fun c => c.1.1)).flatten)
        (restT ++ (comps.map (fun c => c.1.2.1)).flatten) fs sn init nR cz
        (restNV ++ (comps.map (fun c => c.1.2.2)).flatten) pn
      = .ok (comps.map (fun c => c.2.iter), restC, restT, restNV) := by
  intro fs comps
  induction fs generalizing comps with
  | nil =>
    intro restC restT restNV h
    cases h
    simp [structChildrenRev]
  | cons f fs2 ih =>
    intro restC restT restNV h
    rcases h with _ | ⟨⟨h1, h2, h3, h4⟩, htail⟩
    rename_i c comps2
    rw [structChildrenRev]
    simp only [List.map_cons, List.flatten_cons, ← List.append_assoc]
    have d1 : vecDrainLastN (restC ++ c.1.1) (n_columns f.dataType)
        = .ok (restC, c.1.1) := by
      rw [← h1]
      exact vecDrainLastN_append _ _
    have d2 : vecDrainLastN (restT ++ c.1.2.1) (n_columns f.dataType)
        = .ok (restT, c.1.2.1) := by
      rw [← h2]
      exact vecDrainLastN_append _ _
    have d3 : vecDrainLastN (restNV ++ c.1.2.2) (n_columns f.dataType)
        = .ok (restNV, c.1.2.2) := by
      rw [← h3]
      exact vecDrainLastN_append _ _
    rw [ih comps2 (restC ++ c.1.1) (restT ++ c.1.2.1) (restNV ++ c.1.2.2) htail]
    simp only [DResult.monad_bind, DResult.monad_pure, DResult.bind_ok]
    rw [d1]
    simp only [DResult.bind_ok]
    rw [d2]
    simp only [DResult.bind_ok]
    rw [d3]
    simp only [DResult.bind_ok]
    rw [h4]
    simp [DResult.bind]


/-- C4: a struct field's dispatch drains exactly `n_columns(child)` entries
from the tail of each of the three parallel vectors for each child
(processed in reverse declaration order, so the last child owns the last
segment), pushes `Struct(nullable)` onto a cloned context for each child,
recurses with the or-accumulated nullability flag, and zips the resulting
per-field iterators back in declaration order. -/
theorem struct_reverse_drain
    (fields : List Field) (nb : Bool) (init : List InitNested) (nR : Nat)
    (cz : Option Nat) (pn : Bool)
    (comps : List ((List Nat × List PrimitiveTypeDesc × List Nat) × DispatchOut))
    (restC : List Nat) (restT : List PrimitiveTypeDesc) (restNV : List Nat)
    (h : List.Forall₂ (fun f c =>
      c.1.1.length = n_columns f.dataType
      ∧ c.1.2.1.length = n_columns f.dataType
      ∧ c.1.2.2.length = n_columns f.dataType
      ∧ columns_to_iter_recursive c.1.1 c.1.2.1 f (init ++ [.struct nb]) nR cz c.1.2.2
          (pn || nb) = .ok c.2) fields comps) :
    columns_to_iter_recursive (restC ++ (comps.map (fun c => c.1.1)).flatten)
        (restT ++ (comps.map (fun c => c.1.2.1)).flatten) (.mk (.struct fields) nb) init
        nR cz (restNV ++ (comps.map (fun c => c.1.2.2)).flatten) pn
      = .ok ⟨.structAssemble (comps.map (fun c => c.2.iter)) fields, restC, restT,
          restNV⟩ := by
  conv_lhs => rw [columns_to_iter_recursive]
  simp only [Field.dataType, Field.isNullable, DataType.toPhysicalType,
    DataType.toLogicalType, DResult.monad_bind, DResult.monad_pure]
  rw [structChildrenRev_characterization nb init nR cz pn fields comps restC restT
    restNV h]
  simp [DResult.bind]

/-- C4 witness: a two-field struct over Int32/Int64 leaf columns. -/
theorem struct_reverse_drain_witness :
    columns_to_iter_recursive
        ([] ++ (([(([1], [(⟨.int32⟩ : PrimitiveTypeDesc)], [10]),
            (⟨.leaf (.primitiveLeaf .i32Id) .int32 1 [.struct true, .primitive false]
              (some 10) (some true), [], [], []⟩ : DispatchOut)),
          (([2], [(⟨.int64⟩ : PrimitiveTypeDesc)], [11]),
            (⟨.leaf (.primitiveLeaf .i64Id) .int64 2 [.struct true, .primitive true]
              (some 11) (some true), [], [], []⟩ : DispatchOut))]).map
          (fun c => c.1.1)).flatten)
        ([] ++ (([(([1], [(⟨.int32⟩ : PrimitiveTypeDesc)], [10]),
            (⟨.leaf (.primitiveLeaf .i32Id) .int32 1 [.struct true, .primitive false]
              (some 10) (some true), [], [], []⟩ : DispatchOut)),
          (([2], [(⟨.int64⟩ : PrimitiveTypeDesc)], [11]),
            (⟨.leaf (.primitiveLeaf .i64Id) .int64 2 [.struct true, .primitive true]
              (some 11) (some true), [], [], []⟩ : DispatchOut))]).map
          (fun c => c.1.2.1)).flatten)
        (.mk (.struct [.mk .int32 false, .mk .int64 true]) true) [] 7 none
        ([] ++ (([(([1], [(⟨.int32⟩ : PrimitiveTypeDesc)], [10]),
            (⟨.leaf (.primitiveLeaf .i32Id) .int32 1 [.struct true, .primitive false]
              (some 10) (some true), [], [], []⟩ : DispatchOut)),
          (([2], [(⟨.int64⟩ : PrimitiveTypeDesc)], [11]),
            (⟨.leaf (.primitiveLeaf .i64Id) .int64 2 [.struct true, .primitive true]
              (some 11) (some true), [], [], []⟩ : DispatchOut))]).map
          (fun c => c.1.2.2)).flatten) false
      = .ok ⟨.structAssemble
          [.leaf (.primitiveLeaf .i32Id) .int32 1 [.struct true, .primitive false]
            (some 10) (some true),
           .leaf (.primitiveLeaf .i64Id) .int64 2 [.struct true, .primitive true]
            (some 11) (some true)]
          [.mk .int32 false, .mk .int64 true], [], [], []⟩ := by
  have h := struct_reverse_drain [.mk .int32 false, .mk .int64 true] true [] 7 none false
    [(([1], [(⟨.int32⟩ : PrimitiveTypeDesc)], [10]),
       (⟨.leaf (.primitiveLeaf .i32Id) .int32 1 [.struct true, .primitive false]
         (some 10) (some true), [], [], []⟩ : DispatchOut)),
     (([2], [(⟨.int64⟩ : PrimitiveTypeDesc)], [11]),
       (⟨.leaf (.primitiveLeaf .i64Id) .int64 2 [.struct true, .primitive true]
         (some 11) (some true), [], [], []⟩ : DispatchOut))] [] [] []
    (by
      refine List.Forall₂.cons ⟨?_, ?_, ?_, ?_⟩
        (List.Forall₂.cons ⟨?_, ?_, ?_, ?_⟩ List.Forall₂.nil) <;>
        first
          | decide
          | simp [columns_to_iter_recursive, Field.dataType, Field.isNullable,
              DataType.toPhysicalType, vecPopUnwrap, vecPop])
  exact h

/-- C1 witness: the boundary instances `n = 17` (Decimal128 error),
`n = 16` (Decimal128 success) and `n = 33` (Decimal256 error). -/
theorem decimal_width_boundaries_witness :
    (columns_to_iter_recursive ([] ++ [2]) ([] ++ [⟨.fixedLenByteArray 17⟩])
        (.mk (.decimal 38 0) true) [] 1 none ([] ++ [6]) false
      = .err (.invalidArgumentError
          ("Cannot decode Decimal128 type from FixedLenByteArray of len " ++ toString 17)))
    ∧ (columns_to_iter_recursive ([] ++ [2]) ([] ++ [⟨.fixedLenByteArray 16⟩])
        (.mk (.decimal 38 0) true) [] 1 none ([] ++ [6]) false
      = .ok ⟨.leaf (.decimalFromFLBA 16) (.decimal 38 0) 2 ([] ++ [.primitive true])
          (some 6) (some false), [], [], []⟩)
    ∧ (columns_to_iter_recursive ([] ++ [2]) ([] ++ [⟨.fixedLenByteArray 33⟩])
        (.mk (.decimal256 76 0) true) [] 1 none ([] ++ [6]) false
      = .err (.invalidArgumentError
          ("Cannot decode Decimal256 type from FixedLenByteArray of len " ++ toString 33))) :=
  ⟨(decimal_width_boundaries 38 0 17 true [] 2 [] [] 6 [] 1 none false).1 (by decide),
   (decimal_width_boundaries 38 0 16 true [] 2 [] [] 6 [] 1 none false).2.1 (by decide),
   (decimal_width_boundaries 76 0 33 true [] 2 [] [] 6 [] 1 none false).2.2.2.1 (by decide)⟩

end DaftNested

namespace DaftNested

/-- Shape of every successful `dict_read` result: a leaf carrying the given
column and context stack, with no value count and no parent flag. -/
theorem dict_read_ok_shape {col : Nat} {init : List InitNested} {ty : PrimitiveTypeDesc}
    {k : IntegerType} {dt : DataType} {nR : Nat} {cz : Option Nat} {it : NestedIter}
    (h : dict_read col init ty k dt nR cz = .ok it) :
    ∃ kind dt2, it = .leaf kind dt2 col init none none := by
  rcases dt <;> simp [dict_read] at h
  rename_i k2 v sorted
  rcases v <;> simp [dict_read, DataType.toLogicalType] at h <;>
    first
      | exact ⟨_, _, h.symm⟩
      | (rename_i u
         rcases u <;> simp at h <;> exact ⟨_, _, h.symm⟩)

theorem lastChildState_of_uniform {s : List InitNested} :
    ∀ (cs : List NestedIter), cs ≠ [] →
    (∀ ch ∈ cs, NestedIter.topState ch = some s) →
    lastChildState cs = some s := by
  intro cs
  induction cs with
  | nil => intro h; exact absurd rfl h
  | cons x xs ihl =>
    intro _ hall
    cases xs with
    | nil => exact hall x (by simp) ▸ rfl
    | cons y ys =>
      have := ihl (by simp) (fun ch hch => hall ch (by simp [hch]))
      simpa [lastChildState] using this

theorem fieldsWfB_mem : ∀ {fs : List Field}, fieldsWfB fs = true →
    ∀ f ∈ fs, Field.wfB f = true := by
  intro fs
  induction fs with
  | nil => intro _ f hf; simp at hf
  | cons g gs ihl =>
    intro h f hf
    simp [fieldsWfB, Bool.and_eq_true] at h
    rcases List.mem_cons.mp hf with rfl | hf
    · exact h.1
    · exact ihl h.2 f hf

theorem leafFlagsList_of_forall2 {q : Bool} :
    ∀ {fs : List Field} {cs : List NestedIter},
    List.Forall₂ (fun f ch => NestedIter.leafParentFlags ch = expectedLeafFlags f q) fs cs →
    leafFlagsList cs = expectedLeafFlagsList fs q := by
  intro fs cs h
  induction h with
  | nil => rfl
  | cons hx hxs ihl =>
    simp [leafFlagsList, expectedLeafFlagsList, hx, ihl]

theorem leafInitsList_mem :
    ∀ {cs : List NestedIter} {l : List InitNested}, l ∈ leafInitsList cs →
    ∃ ch ∈ cs, l ∈ NestedIter.leafInits ch := by
  intro cs
  induction cs with
  | nil => intro l h; simp [leafInitsList] at h
  | cons x xs ihl =>
    intro l h
    simp only [leafInitsList, List.mem_append] at h
    rcases h with h | h
    · exact ⟨x, by simp, h⟩
    · obtain ⟨ch, hch, hl⟩ := ihl h
      exact ⟨ch, by simp [hch], hl⟩

end DaftNested

namespace DaftNested

theorem forall2_mem_right {P : Field → NestedIter → Prop} :
    ∀ {fs : List Field} {cs : List NestedIter}, List.Forall₂ P fs cs →
    ∀ ch ∈ cs, ∃ f ∈ fs, P f ch := by
  intro fs cs h
  induction h with
  | nil => intro ch hch; simp at hch
  | cons hx hxs ihl =>
    intro ch hch
    rcases List.mem_cons.mp hch with rfl | hch2
    · exact ⟨_, by simp, hx⟩
    · obtain ⟨f, hf, hp⟩ := ihl ch hch2
      exact ⟨f, by simp [hf], hp⟩

set_option maxHeartbeats 4000000 in
/-- Master invariant of a successful dispatch: the state yielded at the top
equals the context the call received (every push matched by a pop along the
surviving lineage), every leaf received the caller's context extended by
non-primitive levels and exactly one final `Primitive` entry, and the
parent-nullability flags received by the leaf decoders follow the
or-accumulation of ancestor nullability (with dictionary leaves receiving
none). -/
theorem dispatch_inv : ∀ (w : Nat) (field : Field), sizeOf field ≤ w →
    ∀ (c : List Nat) (t : List PrimitiveTypeDesc) (init : List InitNested) (nR : Nat)
      (cz : Option Nat) (nv : List Nat) (p : Bool) (r : DispatchOut),
    Field.wfB field = true →
    columns_to_iter_recursive c t field init nR cz nv p = .ok r →
    r.iter.topState = some init
    ∧ (∀ l ∈ r.iter.leafInits, ∃ mid last,
        l = init ++ mid ++ [InitNested.primitive last]
        ∧ ∀ x ∈ mid, x.isPrimitive = false)
    ∧ r.iter.leafParentFlags = expectedLeafFlags field p := by
  intro w
  induction w using Nat.strong_induction_on with
  | _ w ih =>
  intro field hw c t init nR cz nv p r hwf hok
  rcases field with ⟨dt, nb⟩
  cases dt
  -- plain leaf arms: pop one column and one value count, push one Primitive
  all_goals try
    (rcases hc : vecPop c with _ | ⟨col2, c2⟩ <;>
       rcases hn : vecPop nv with _ | ⟨a, nv2⟩ <;>
       simp [columns_to_iter_recursive, Field.dataType, Field.isNullable,
         DataType.toPhysicalType, DataType.toLogicalType, vecPopUnwrap, hc, hn] at hok
     subst hok
     refine ⟨by simp [NestedIter.topState, vecPop_append_singleton], ?_,
       by simp [NestedIter.leafParentFlags, expectedLeafFlags, expectedLeafFlagsDT]⟩
     intro l hmem
     simp [NestedIter.leafInits] at hmem
     subst hmem
     exact ⟨[], nb, by simp, by simp⟩)
  all_goals try
    (simp [columns_to_iter_recursive, Field.dataType, Field.isNullable,
      DataType.toPhysicalType, DataType.toLogicalType] at hok
     done)
  case interval u =>
    rcases u <;>
      [skip; skip; skip] <;>
      first
        | (rcases hc : vecPop c with _ | ⟨col2, c2⟩ <;>
             rcases hn : vecPop nv with _ | ⟨a, nv2⟩ <;>
             simp [columns_to_iter_recursive, Field.dataType, Field.isNullable,
               DataType.toPhysicalType, DataType.toLogicalType, vecPopUnwrap, hc, hn]
               at hok
           subst hok
           refine ⟨by simp [NestedIter.topState, vecPop_append_singleton], ?_,
             by simp [NestedIter.leafParentFlags, expectedLeafFlags, expectedLeafFlagsDT]⟩
           intro l hmem
           simp [NestedIter.leafInits] at hmem
           subst hmem
           exact ⟨[], nb, by simp, by simp⟩)
        | simp [columns_to_iter_recursive, Field.dataType, Field.isNullable,
            DataType.toPhysicalType, DataType.toLogicalType] at hok
  case uint32 =>
    rcases ht : vecPop t with _ | ⟨⟨pt⟩, t2⟩
    · simp [columns_to_iter_recursive, Field.dataType, Field.isNullable,
        DataType.toPhysicalType, vecPopUnwrap, ht] at hok
    · rcases pt <;>
        rcases hc : vecPop c with _ | ⟨col2, c2⟩ <;>
        rcases hn : vecPop nv with _ | ⟨a, nv2⟩ <;>
        simp [columns_to_iter_recursive, Field.dataType, Field.isNullable,
          DataType.toPhysicalType, DataType.toLogicalType, vecPopUnwrap, ht, hc, hn]
          at hok <;>
        (subst hok
         refine ⟨by simp [NestedIter.topState, vecPop_append_singleton], ?_,
           by simp [NestedIter.leafParentFlags, expectedLeafFlags, expectedLeafFlagsDT]⟩
         intro l hmem
         simp [NestedIter.leafInits] at hmem
         subst hmem
         exact ⟨[], nb, by simp, by simp⟩)
  case decimal dp ds =>
    rcases ht : vecPop t with _ | ⟨⟨pt⟩, t2⟩
    · simp [columns_to_iter_recursive, Field.dataType, Field.isNullable,
        DataType.toPhysicalType, DataType.toLogicalType, vecPopUnwrap, ht] at hok
    · rcases pt <;>
        rcases hc : vecPop c with _ | ⟨col2, c2⟩ <;>
        rcases hn : vecPop nv with _ | ⟨a, nv2⟩ <;>
        simp [columns_to_iter_recursive, Field.dataType, Field.isNullable,
          DataType.toPhysicalType, DataType.toLogicalType, vecPopUnwrap, ht, hc, hn]
          at hok <;>
        (try split at hok) <;>
        (try simp at hok) <;>
        (subst hok
         refine ⟨by simp [NestedIter.topState, vecPop_append_singleton], ?_,
           by simp [NestedIter.leafParentFlags, expectedLeafFlags, expectedLeafFlagsDT]⟩
         intro l hmem
         simp [NestedIter.leafInits] at hmem
         subst hmem
         exact ⟨[], nb, by simp, by simp⟩)
  case decimal256 dp ds =>
    rcases ht : vecPop t with _ | ⟨⟨pt⟩, t2⟩
    · simp [columns_to_iter_recursive, Field.dataType, Field.isNullable,
        DataType.toPhysicalType, DataType.toLogicalType, vecPopUnwrap, ht] at hok
    · rcases pt <;>
        rcases hc : vecPop c with _ | ⟨col2, c2⟩ <;>
        rcases hn : vecPop nv with _ | ⟨a, nv2⟩ <;>
        simp [columns_to_iter_recursive, Field.dataType, Field.isNullable,
          DataType.toPhysicalType, DataType.toLogicalType, vecPopUnwrap, ht, hc, hn]
          at hok <;>
        (try split at hok) <;>
        (try split at hok) <;>
        (try simp at hok) <;>
        (subst hok
         refine ⟨by simp [NestedIter.topState, vecPop_append_singleton], ?_,
           by simp [NestedIter.leafParentFlags, expectedLeafFlags, expectedLeafFlagsDT]⟩
         intro l hmem
         simp [NestedIter.leafInits] at hmem
         subst hmem
         exact ⟨[], nb, by simp, by simp⟩)
  case dictionary k v sorted =>
    rcases ht : vecPop t with _ | ⟨ty, t2⟩
    · simp [columns_to_iter_recursive, Field.dataType, Field.isNullable,
        DataType.toPhysicalType, DataType.toLogicalType, vecPopUnwrap, ht] at hok
    · rcases hc : vecPop c with _ | ⟨col2, c2⟩
      · simp [columns_to_iter_recursive, Field.dataType, Field.isNullable,
          DataType.toPhysicalType, DataType.toLogicalType, vecPopUnwrap, ht, hc] at hok
      · simp only [columns_to_iter_recursive, Field.dataType, Field.isNullable,
          DataType.toPhysicalType, DataType.toLogicalType, DResult.monad_bind,
          DResult.monad_pure, vecPopUnwrap, ht, hc, DResult.bind_ok] at hok
        cases hd : dict_read col2 (init ++ [InitNested.primitive nb]) ty k
            (.dictionary k v sorted) nR cz with
        | ok it =>
          rw [hd] at hok
          simp at hok
          obtain ⟨kind, dt2, rfl⟩ := dict_read_ok_shape hd
          subst hok
          refine ⟨by simp [NestedIter.topState, vecPop_append_singleton], ?_,
            by simp [NestedIter.leafParentFlags, expectedLeafFlags, expectedLeafFlagsDT]⟩
          intro l hmem
          simp [NestedIter.leafInits] at hmem
          subst hmem
          exact ⟨[], nb, by simp, by simp⟩
        | err e =>
          rw [hd] at hok
          simp [DResult.bind] at hok
        | panicked =>
          rw [hd] at hok
          simp [DResult.bind] at hok
  case list inner =>
    rw [columns_to_iter_recursive] at hok
    simp only [Field.dataType, Field.isNullable, DataType.toPhysicalType,
      DataType.toLogicalType, DResult.monad_bind, DResult.monad_pure] at hok
    cases hrec : columns_to_iter_recursive c t inner (init ++ [InitNested.list nb]) nR cz
        nv (p || nb) with
    | ok r2 =>
      rw [hrec] at hok
      simp only [DResult.bind_ok, DResult.ok.injEq] at hok
      subst hok
      have hsz : sizeOf inner < w := by
        have : sizeOf inner < sizeOf (Field.mk (DataType.list inner) nb) := by
          simp
          omega
        omega
      have hin := ih (sizeOf inner) hsz inner le_rfl c t (init ++ [InitNested.list nb])
        nR cz nv (p || nb) r2 (by simpa [Field.wfB, DataType.wfB] using hwf) hrec
      refine ⟨by simp [NestedIter.topState, hin.1, vecPop_append_singleton], ?_,
        by simp [NestedIter.leafParentFlags, hin.2.2, expectedLeafFlags,
          expectedLeafFlagsDT]⟩
      intro l hmem
      simp only [NestedIter.leafInits] at hmem
      obtain ⟨mid, last, heq, hmid⟩ := hin.2.1 l hmem
      refine ⟨InitNested.list nb :: mid, last, by simp [heq], ?_⟩
      intro x hx
      rcases List.mem_cons.mp hx with rfl | hx2
      · rfl
      · exact hmid x hx2
    | err e =>
      rw [hrec] at hok
      simp [DResult.bind] at hok
    | panicked =>
      rw [hrec] at hok
      simp [DResult.bind] at hok
  case largeList inner =>
    rw [columns_to_iter_recursive] at hok
    simp only [Field.dataType, Field.isNullable, DataType.toPhysicalType,
      DataType.toLogicalType, DResult.monad_bind, DResult.monad_pure] at hok
    cases hrec : columns_to_iter_recursive c t inner (init ++ [InitNested.list nb]) nR cz
        nv (p || nb) with
    | ok r2 =>
      rw [hrec] at hok
      simp only [DResult.bind_ok, DResult.ok.injEq] at hok
      subst hok
      have hsz : sizeOf inner < w := by
        have : sizeOf inner < sizeOf (Field.mk (DataType.largeList inner) nb) := by
          simp
          omega
        omega
      have hin := ih (sizeOf inner) hsz inner le_rfl c t (init ++ [InitNested.list nb])
        nR cz nv (p || nb) r2 (by simpa [Field.wfB, DataType.wfB] using hwf) hrec
      refine ⟨by simp [NestedIter.topState, hin.1, vecPop_append_singleton], ?_,
        by simp [NestedIter.leafParentFlags, hin.2.2, expectedLeafFlags,
          expectedLeafFlagsDT]⟩
      intro l hmem
      simp only [NestedIter.leafInits] at hmem
      obtain ⟨mid, last, heq, hmid⟩ := hin.2.1 l hmem
      refine ⟨InitNested.list nb :: mid, last, by simp [heq], ?_⟩
      intro x hx
      rcases List.mem_cons.mp hx with rfl | hx2
      · rfl
      · exact hmid x hx2
    | err e =>
      rw [hrec] at hok
      simp [DResult.bind] at hok
    | panicked =>
      rw [hrec] at hok
      simp [DResult.bind] at hok
  case fixedSizeList inner sz =>
    rw [columns_to_iter_recursive] at hok
    simp only [Field.dataType, Field.isNullable, DataType.toPhysicalType,
      DataType.toLogicalType, DResult.monad_bind, DResult.monad_pure] at hok
    cases hrec : columns_to_iter_recursive c t inner (init ++ [InitNested.list nb]) nR cz
        nv (p || nb) with
    | ok r2 =>
      rw [hrec] at hok
      simp only [DResult.bind_ok, DResult.ok.injEq] at hok
      subst hok
      have hsz : sizeOf inner < w := by
        have : sizeOf inner < sizeOf (Field.mk (DataType.fixedSizeList inner sz) nb) := by
          simp
          omega
        omega
      have hin := ih (sizeOf inner) hsz inner le_rfl c t (init ++ [InitNested.list nb])
        nR cz nv (p || nb) r2 (by simpa [Field.wfB, DataType.wfB] using hwf) hrec
      refine ⟨by simp [NestedIter.topState, hin.1, vecPop_append_singleton], ?_,
        by simp [NestedIter.leafParentFlags, hin.2.2, expectedLeafFlags,
          expectedLeafFlagsDT]⟩
      intro l hmem
      simp only [NestedIter.leafInits] at hmem
      obtain ⟨mid, last, heq, hmid⟩ := hin.2.1 l hmem
      refine ⟨InitNested.list nb :: mid, last, by simp [heq], ?_⟩
      intro x hx
      rcases List.mem_cons.mp hx with rfl | hx2
      · rfl
      · exact hmid x hx2
    | err e =>
      rw [hrec] at hok
      simp [DResult.bind] at hok
    | panicked =>
      rw [hrec] at hok
      simp [DResult.bind] at hok
  case map inner sorted =>
    rw [columns_to_iter_recursive] at hok
    simp only [Field.dataType, Field.isNullable, DataType.toPhysicalType,
      DataType.toLogicalType, DResult.monad_bind, DResult.monad_pure] at hok
    cases hrec : columns_to_iter_recursive c t inner (init ++ [InitNested.list nb]) nR cz
        nv (p || nb) with
    | ok r2 =>
      rw [hrec] at hok
      simp only [DResult.bind_ok, DResult.ok.injEq] at hok
      subst hok
      have hsz : sizeOf inner < w := by
        have : sizeOf inner < sizeOf (Field.mk (DataType.map inner sorted) nb) := by
          simp
          omega
        omega
      have hin := ih (sizeOf inner) hsz inner le_rfl c t (init ++ [InitNested.list nb])
        nR cz nv (p || nb) r2 (by simpa [Field.wfB, DataType.wfB] using hwf) hrec
      refine ⟨by simp [NestedIter.topState, hin.1, vecPop_append_singleton], ?_,
        by simp [NestedIter.leafParentFlags, hin.2.2, expectedLeafFlags,
          expectedLeafFlagsDT]⟩
      intro l hmem
      simp only [NestedIter.leafInits] at hmem
      obtain ⟨mid, last, heq, hmid⟩ := hin.2.1 l hmem
      refine ⟨InitNested.list nb :: mid, last, by simp [heq], ?_⟩
      intro x hx
      rcases List.mem_cons.mp hx with rfl | hx2
      · rfl
      · exact hmid x hx2
    | err e =>
      rw [hrec] at hok
      simp [DResult.bind] at hok
    | panicked =>
      rw [hrec] at hok
      simp [DResult.bind] at hok
  case struct fields =>
    have hwfc : (!fields.isEmpty) = true ∧ fieldsWfB fields = true := by
      simpa [Field.wfB, DataType.wfB, Bool.and_eq_true] using hwf
    have hneq : fields ≠ [] := by
      intro hempty
      rw [hempty] at hwfc
      simp [List.isEmpty] at hwfc
    have hwf2 : fields ≠ [] ∧ fieldsWfB fields = true := ⟨hneq, hwfc.2⟩
    have hb : ∀ f ∈ fields, sizeOf f < w ∧ Field.wfB f = true := by
      intro f hf
      refine ⟨?_, fieldsWfB_mem hwf2.2 f hf⟩
      have h1 := List.sizeOf_lt_of_mem hf
      have h2 : sizeOf f < sizeOf (Field.mk (DataType.struct fields) nb) := by
        simp
        omega
      omega
    have aux : ∀ fs : List Field, (∀ f ∈ fs, sizeOf f < w ∧ Field.wfB f = true) →
        ∀ (c0 : List Nat) (t0 : List PrimitiveTypeDesc) (nv0 : List Nat)
          (out : List NestedIter × List Nat × List PrimitiveTypeDesc × List Nat),
        structChildrenRev c0 t0 fs nb init nR cz nv0 p = .ok out →
        List.Forall₂ (fun f ch =>
          NestedIter.topState ch = some (init ++ [InitNested.struct nb])
          ∧ (∀ l ∈ NestedIter.leafInits ch, ∃ mid last,
              l = (init ++ [InitNested.struct nb]) ++ mid ++ [InitNested.primitive last]
              ∧ ∀ x ∈ mid, x.isPrimitive = false)
          ∧ NestedIter.leafParentFlags ch = expectedLeafFlags f (p || nb)) fs out.1 := by
      intro fs
      induction fs with
      | nil =>
        intro _ c0 t0 nv0 out h
        rw [structChildrenRev] at h
        simp only [DResult.ok.injEq] at h
        rw [← h]
        exact List.Forall₂.nil
      | cons f fs2 ihl =>
        intro hbs c0 t0 nv0 out h
        rw [structChildrenRev] at h
        simp only [DResult.monad_bind, DResult.monad_pure] at h
        cases hs2 : structChildrenRev c0 t0 fs2 nb init nR cz nv0 p with
        | ok tail2 =>
          rw [hs2] at h
          obtain ⟨rest2, c1, t1, nv1⟩ := tail2
          simp only [DResult.bind_ok] at h
          cases hd1 : vecDrainLastN c1 (n_columns f.dataType) with
          | ok pc =>
            rw [hd1] at h
            obtain ⟨c1r, segc⟩ := pc
            simp only [DResult.bind_ok] at h
            cases hd2 : vecDrainLastN t1 (n_columns f.dataType) with
            | ok pt2 =>
              rw [hd2] at h
              obtain ⟨t1r, segt⟩ := pt2
              simp only [DResult.bind_ok] at h
              cases hd3 : vecDrainLastN nv1 (n_columns f.dataType) with
              | ok pnv =>
                rw [hd3] at h
                obtain ⟨nv1r, segnv⟩ := pnv
                simp only [DResult.bind_ok] at h
                cases hdisp : columns_to_iter_recursive segc segt f
                    (init ++ [InitNested.struct nb]) nR cz segnv (p || nb) with
                | ok rf =>
                  rw [hdisp] at h
                  simp only [DResult.bind_ok, DResult.monad_pure, DResult.ok.injEq] at h
                  rw [← h]
                  have hhead := ih (sizeOf f) (hbs f (by simp)).1 f le_rfl segc segt
                    (init ++ [InitNested.struct nb]) nR cz segnv (p || nb) rf
                    (hbs f (by simp)).2 hdisp
                  refine List.Forall₂.cons ⟨hhead.1, hhead.2.1, hhead.2.2⟩ ?_
                  have := ihl (fun g hg => hbs g (by simp [hg])) c0 t0 nv0
                    (rest2, c1, t1, nv1) hs2
                  simpa using this
                | err e =>
                  rw [hdisp] at h
                  simp [DResult.bind] at h
                | panicked =>
                  rw [hdisp] at h
                  simp [DResult.bind] at h
              | err e =>
                rw [hd3] at h
                simp [DResult.bind] at h
              | panicked =>
                rw [hd3] at h
                simp [DResult.bind] at h
            | err e =>
              rw [hd2] at h
              simp [DResult.bind] at h
            | panicked =>
              rw [hd2] at h
              simp [DResult.bind] at h
          | err e =>
            rw [hd1] at h
            simp [DResult.bind] at h
          | panicked =>
            rw [hd1] at h
            simp [DResult.bind] at h
        | err e =>
          rw [hs2] at h
          simp [DResult.bind] at h
        | panicked =>
          rw [hs2] at h
          simp [DResult.bind] at h
    simp only [columns_to_iter_recursive, Field.dataType, Field.isNullable,
      DataType.toPhysicalType, DataType.toLogicalType, DResult.monad_bind,
      DResult.monad_pure] at hok
    cases hsc : structChildrenRev c t fields nb init nR cz nv p with
    | ok out =>
      rw [hsc] at hok
      obtain ⟨children, restC, restT, restNV⟩ := out
      simp only [DResult.bind_ok, DResult.ok.injEq] at hok
      subst hok
      have hfa := aux fields hb c t nv (children, restC, restT, restNV) hsc
      simp only at hfa
      have hne : children ≠ [] := by
        intro hempty
        apply hwf2.1
        have hlen := List.Forall₂.length_eq hfa
        rw [hempty] at hlen
        simpa using List.length_eq_zero.mp hlen
      refine ⟨?_, ?_, ?_⟩
      · have huni : ∀ ch ∈ children, NestedIter.topState ch
            = some (init ++ [InitNested.struct nb]) := by
          intro ch hch
          obtain ⟨f, _, hq⟩ := forall2_mem_right hfa ch hch
          exact hq.1
        simp [NestedIter.topState, lastChildState_of_uniform children hne huni,
          vecPop_append_singleton]
      · intro l hmem
        simp only [NestedIter.leafInits] at hmem
        obtain ⟨ch, hch, hl⟩ := leafInitsList_mem hmem
        obtain ⟨f, _, hq⟩ := forall2_mem_right hfa ch hch
        obtain ⟨mid, last, heq, hmid⟩ := hq.2.1 l hl
        refine ⟨InitNested.struct nb :: mid, last, by simp [heq], ?_⟩
        intro x hx
        rcases List.mem_cons.mp hx with rfl | hx2
        · rfl
        · exact hmid x hx2
      · have := leafFlagsList_of_forall2 (List.Forall₂.imp (fun f ch hq => hq.2.2) hfa)
        simp [NestedIter.leafParentFlags, this, expectedLeafFlags, expectedLeafFlagsDT]
    | err e =>
      rw [hsc] at hok
      simp [DResult.bind] at hok
    | panicked =>
      rw [hsc] at hok
      simp [DResult.bind] at hok

end DaftNested

namespace DaftNested

/-- C2 counterexample: for the schema Struct{Int32, Int32}, the decode
pushes four `InitNested` entries (one cloned `Struct` entry plus one
`Primitive` per child) but the leaf wrappers and the struct assembler pop
only three (the assembler consumes a single child's struct entry; the
sibling clone's entry is dropped unpopped), so the pushed and popped counts
differ. -/
theorem nesting_push_pop_counterexample :
    columns_to_iter_recursive [1, 2] [⟨.int32⟩, ⟨.int32⟩]
        (.mk (.struct [.mk .int32 false, .mk .int32 false]) false) [] 1 none [5, 6] false
      = .ok ⟨.structAssemble
          [.leaf (.primitiveLeaf .i32Id) .int32 1 [.struct false, .primitive false]
            (some 5) (some false),
           .leaf (.primitiveLeaf .i32Id) .int32 2 [.struct false, .primitive false]
            (some 6) (some false)]
          [.mk .int32 false, .mk .int32 false], [], [], []⟩
    ∧ NestedIter.totalPushes (.structAssemble
          [.leaf (.primitiveLeaf .i32Id) .int32 1 [.struct false, .primitive false]
            (some 5) (some false),
           .leaf (.primitiveLeaf .i32Id) .int32 2 [.struct false, .primitive false]
            (some 6) (some false)]
          [.mk .int32 false, .mk .int32 false]) = 4
    ∧ NestedIter.totalPops (.structAssemble
          [.leaf (.primitiveLeaf .i32Id) .int32 1 [.struct false, .primitive false]
            (some 5) (some false),
           .leaf (.primitiveLeaf .i32Id) .int32 2 [.struct false, .primitive false]
            (some 6) (some false)]
          [.mk .int32 false, .mk .int32 false]) = 3
    ∧ (4 : Nat) ≠ 3 := by
  refine ⟨?_, rfl, rfl, by decide⟩
  simp [columns_to_iter_recursive, structChildrenRev, vecDrainLastN, vecPopUnwrap,
    vecPop, n_columns, nColumnsField, nColumnsFields, Field.dataType, Field.isNullable,
    DataType.toPhysicalType, DataType.toLogicalType]

/-- C2 (amended): along the context lineage that survives to the top,
pushes and pops balance — the `NestedState` yielded at the top of a
successful decode equals the context the call received (empty at the top
level) — and each leaf receives the caller's context extended by
non-primitive levels plus exactly one final `Primitive` entry, which is the
last entry pushed and (being popped by the leaf wrapper) the first popped;
for structs with several children, only one cloned context is consumed and
the siblings are dropped, so the raw push count may exceed the raw pop
count. -/
theorem nesting_balance_amended (field : Field) (c : List Nat) (t : List PrimitiveTypeDesc)
    (init : List InitNested) (nR : Nat) (cz : Option Nat) (nv : List Nat) (p : Bool)
    (r : DispatchOut) (hwf : Field.wfB field = true)
    (hok : columns_to_iter_recursive c t field init nR cz nv p = .ok r) :
    r.iter.topState = some init
    ∧ (∀ l ∈ r.iter.leafInits, ∃ mid last,
        l = init ++ mid ++ [InitNested.primitive last]
        ∧ ∀ x ∈ mid, x.isPrimitive = false) :=
  ⟨(dispatch_inv (sizeOf field) field le_rfl c t init nR cz nv p r hwf hok).1,
   (dispatch_inv (sizeOf field) field le_rfl c t init nR cz nv p r hwf hok).2.1⟩

/-- C2 witness: a flat nullable Int32 column decoded from an empty
context. -/
theorem nesting_balance_amended_witness :
    (⟨.leaf (.primitiveLeaf .i32Id) .int32 7 [.primitive true] (some 5) (some false),
        [], [], []⟩ : DispatchOut).iter.topState = some []
    ∧ (∀ l ∈ (⟨.leaf (.primitiveLeaf .i32Id) .int32 7 [.primitive true] (some 5)
        (some false), [], [], []⟩ : DispatchOut).iter.leafInits, ∃ mid last,
        l = [] ++ mid ++ [InitNested.primitive last]
        ∧ ∀ x ∈ mid, x.isPrimitive = false) :=
  nesting_balance_amended (.mk .int32 true) [7] [⟨.int32⟩] [] 1 none [5] false _ (by decide)
    (by simp [columns_to_iter_recursive, Field.dataType, Field.isNullable,
      DataType.toPhysicalType, vecPopUnwrap, vecPop])

/-- C9 counterexample: a dictionary leaf's decoder receives no
parent-nullability flag at all — dispatching a dictionary field with
received flag `true` builds a leaf whose flag slot is `none`, not
`some true` — so the claim that every leaf case passes the received flag
through to its leaf decoder fails. -/
theorem dictionary_leaf_flag_counterexample :
    columns_to_iter_recursive [1] [⟨.int32⟩] (.mk (.dictionary .int32 .int32 false) false)
        [] 1 none [] true
      = .ok ⟨.leaf (.dictPrimitiveLeaf .int32 .i32Id) (.dictionary .int32 .int32 false) 1
          [.primitive false] none none, [], [], []⟩
    ∧ (NestedIter.leaf (.dictPrimitiveLeaf .int32 .i32Id)
        (.dictionary .int32 .int32 false) 1 [.primitive false] none
        none).leafParentFlags = [none]
    ∧ ([none] : List (Option Bool)) ≠ [some true] := by
  refine ⟨?_, rfl, by decide⟩
  simp [columns_to_iter_recursive, dict_read, vecPopUnwrap, vecPop, Field.dataType,
    Field.isNullable, DataType.toPhysicalType, DataType.toLogicalType]

/-- C9 (amended): with `is_parent_nullable = false` at the top level, the
flag received by a schema node is the or-accumulation of its strict
ancestors' nullability: list, map and struct arms pass
`is_parent_nullable || field.is_nullable` to their children, and every
non-dictionary leaf passes the received flag through unchanged to its leaf
decoder — while the dictionary leaf's decoder receives no flag
(`expectedLeafFlags` is exactly this specification). -/
theorem parent_nullable_flag_propagation (field : Field) (c : List Nat) (t : List PrimitiveTypeDesc)
    (init : List InitNested) (nR : Nat) (cz : Option Nat) (nv : List Nat) (p : Bool)
    (r : DispatchOut) (hwf : Field.wfB field = true)
    (hok : columns_to_iter_recursive c t field init nR cz nv p = .ok r) :
    r.iter.leafParentFlags = expectedLeafFlags field p :=
  (dispatch_inv (sizeOf field) field le_rfl c t init nR cz nv p r hwf hok).2.2

/-- C9 witness: a nullable list of non-nullable Int32 — its single leaf
decoder receives `some true` (the list ancestor is nullable). -/
theorem parent_nullable_flag_propagation_witness :
    (⟨.listAssemble (.list (.mk .int32 false))
        (.leaf (.primitiveLeaf .i32Id) .int32 3 [.list true, .primitive false] (some 5)
          (some true)), [], [], []⟩ : DispatchOut).iter.leafParentFlags
      = expectedLeafFlags (.mk (.list (.mk .int32 false)) true) false :=
  parent_nullable_flag_propagation (.mk (.list (.mk .int32 false)) true) [3] [⟨.int32⟩] [] 1 none [5]
    false _ (by decide)
    (by rw [columns_to_iter_recursive]
        simp [columns_to_iter_recursive, Field.dataType, Field.isNullable,
          DataType.toPhysicalType, DataType.toLogicalType, vecPopUnwrap, vecPop])

end DaftNested
